import Mathlib

/-!
Shallow embedding of the performance-calculation core of the academic-web
repository (src/backend/analytics/services.py, class PerformanceCalculator),
together with the relational state it reads and writes
(src/backend/students/models.py, src/backend/grades/models.py,
src/backend/analytics/models.py).

Modelling conventions:
- Django table rows become Lean structures; each table is a list of rows,
  collected in a DB structure that plays the role of the ORM-visible state.
- Python Decimal arithmetic is embedded as exact rational arithmetic.  The
  source computes quotients at 28 significant digits before rounding to two
  decimals; for the quantities occurring here (numerator and denominator are
  hundredth-integers bounded by the schema) the 28-digit intermediate rounding
  never changes the final two-decimal result, so the exact-rational embedding
  agrees with Decimal on every reachable input.
- Python round(x, 2) on Decimal rounds half to even; round2 below mirrors it.
- Fallible code paths are explicit: functions that can return Python None
  return Option, and the orchestrator exposes its exception channel as an
  Except value (no operation of the embedded fragment actually raises).
-/

/-- Round-half-to-even of a rational to an integer, as Python Decimal
quantization does at integral precision. -/
def roundHalfEvenInt (q : ℚ) : ℤ :=
  let f : ℤ := ⌊q⌋
  let frac := q - (f : ℚ)
  if frac < 1/2 then f
  else if 1/2 < frac then f + 1
  else if f % 2 = 0 then f else f + 1

/-- Round a rational to two decimal places, half to even: the embedding of
Python round(x, 2) on Decimal values (services.py lines 103, 151, 215-216). -/
def round2 (q : ℚ) : ℚ := (roundHalfEvenInt (q * 100) : ℚ) / 100

/-- Row of the academic_student table (students/models.py, class Student).
Only the columns read by the calculation core are modelled: primary key,
class_assigned foreign key, and the is_active flag. -/
structure Student where
  id : Nat
  class_assigned_id : Nat
  is_active : Bool
deriving Repr, DecidableEq

/-- Row of the subject table (students/models.py, class Subject): primary key
and the weighting coefficient (DecimalField, 2 decimal places, validated
positive). -/
structure Subject where
  id : Nat
  coefficient : ℚ
deriving Repr, DecidableEq

/-- Row of the academic_semester table (students/models.py, class Semester):
primary key, academic_year string and start_date (dates modelled as ordinals:
only equality of years and order of start dates is read by the core). -/
structure Semester where
  id : Nat
  academic_year : String
  start_date : Nat
deriving Repr, DecidableEq

/-- Row of the academic_grade table (grades/models.py, class Grade): the three
foreign keys and the value (DecimalField with 2 decimal places in [0,20]). -/
structure Grade where
  student_id : Nat
  subject_id : Nat
  semester_id : Nat
  value : ℚ
deriving Repr, DecidableEq

/-- Row of the academic_performance_indicator table (analytics/models.py,
class PerformanceIndicator): subject_id is none for the overall indicator;
calculated_at is the auto_now timestamp, modelled as a Nat tick. -/
structure PerformanceIndicator where
  student_id : Nat
  semester_id : Nat
  subject_id : Option Nat
  average : ℚ
  standard_deviation : Option ℚ
  progression_percentage : Option ℚ
  class_rank : Option Nat
  calculated_at : Nat
deriving Repr, DecidableEq

/-- The unique_together key (student, semester, subject) of an indicator row. -/
def PerformanceIndicator.key (i : PerformanceIndicator) : Nat × Nat × Option Nat :=
  (i.student_id, i.semester_id, i.subject_id)

/-- The ORM-visible database state read and written by the calculation core;
now is the clock used for auto_now timestamps. -/
structure DB where
  students : List Student
  subjects : List Subject
  semesters : List Semester
  grades : List Grade
  indicators : List PerformanceIndicator
  now : Nat
deriving Repr, DecidableEq

/-- Coefficient of the subject a grade references, via the subject foreign key
(grade.subject.coefficient in services.py line 89).  Referential integrity
makes the lookup always succeed in Django; the 0 default is unreachable there
and theorems that depend on coefficients carry the integrity hypothesis. -/
def coefficientOf (subjects : List Subject) (subject_id : Nat) : ℚ :=
  match subjects.find? (fun s => s.id == subject_id) with
  | some s => s.coefficient
  | none => 0

/-- Grade.objects.filter(student_id=..., semester_id=...) (services.py
lines 77-80 and 256-259). -/
def gradesFor (grades : List Grade) (student_id semester_id : Nat) : List Grade :=
  grades.filter (fun g => g.student_id == student_id && g.semester_id == semester_id)

/-- Embedding of PerformanceCalculator.calculate_subject_average (services.py
lines 23-56): the first grade for the (student, subject, semester) triple, or
None when there is none. -/
def calculate_subject_average (db : DB) (student_id subject_id semester_id : Nat) :
    Option ℚ :=
  match db.grades.find? (fun g =>
      g.student_id == student_id && g.subject_id == subject_id &&
      g.semester_id == semester_id) with
  | some g => some g.value
  | none => none

/-- Accumulated total_weighted_grade of the loop in services.py lines 88-91. -/
def totalWeighted (subjects : List Subject) (gs : List Grade) : ℚ :=
  (gs.map (fun g => g.value * coefficientOf subjects g.subject_id)).sum

/-- Accumulated total_coefficient of the loop in services.py lines 88-91. -/
def totalCoefficient (subjects : List Subject) (gs : List Grade) : ℚ :=
  (gs.map (fun g => coefficientOf subjects g.subject_id)).sum

/-- Core of calculate_overall_average, parameterised by the two tables it
reads. -/
def overallAverageCore (grades : List Grade) (subjects : List Subject)
    (student_id semester_id : Nat) : Option ℚ :=
  let gs := gradesFor grades student_id semester_id
  if gs.isEmpty then none
  else
    let tc := totalCoefficient subjects gs
    if tc = 0 then none
    else some (round2 (totalWeighted subjects gs / tc))

/-- Embedding of PerformanceCalculator.calculate_overall_average (services.py
lines 58-110): coefficient-weighted mean of the student's grades in the
semester, rounded to 2 decimals; None when there are no grades or the total
coefficient is zero. -/
def calculate_overall_average (db : DB) (student_id semester_id : Nat) : Option ℚ :=
  overallAverageCore db.grades db.subjects student_id semester_id

/-- Embedding of PerformanceCalculator.calculate_progression (services.py
lines 112-157). -/
def calculate_progression (db : DB)
    (student_id current_semester_id previous_semester_id : Nat) : Option ℚ :=
  match calculate_overall_average db student_id current_semester_id,
        calculate_overall_average db student_id previous_semester_id with
  | some current_avg, some previous_avg =>
      if previous_avg = 0 then none
      else some (round2 ((current_avg - previous_avg) / previous_avg * 100))
  | _, _ => none

/-- Return shape of calculate_class_statistics (the dict with keys mean,
std_dev, student_count). -/
structure ClassStatistics where
  mean : Option ℚ
  std_dev : Option ℚ
  student_count : Nat
deriving Repr, DecidableEq

/-- Student.objects.filter(class_assigned_id=..., is_active=True)
(services.py lines 176-179 and 353-356). -/
def activeStudentsOf (students : List Student) (class_id : Nat) : List Student :=
  students.filter (fun s => s.class_assigned_id == class_id && s.is_active)

/-- Two-decimal half-even rounding of the real square root of a nonnegative
rational, computed exactly with integer square roots.  The source computes
variance ** 0.5 in IEEE doubles and then rounds the printed value
(services.py lines 210, 216); the claims under verification only depend on
the zero- and one-student branches, where both computations give 0 exactly,
and on determinism of the multi-student branch. -/
def sqrtRound2 (v : ℚ) : ℚ :=
  let p := v.num.toNat
  let q := v.den
  let f := Nat.sqrt (10000 * p * q) / q
  let n : Nat :=
    if (2 * f + 1) ^ 2 * q < 40000 * p then f + 1
    else if 40000 * p < (2 * f + 1) ^ 2 * q then f
    else if f % 2 = 0 then f else f + 1
  (n : ℚ) / 100

/-- Embedding of PerformanceCalculator.calculate_class_statistics (services.py
lines 159-229): population mean and standard deviation of the overall averages
of the active students of a class.  The source converts the Decimal averages
to floats for this computation; for the branches the verified claims rely on
(no averaged student, exactly one averaged student) the float and rational
computations coincide exactly. -/
def calculate_class_statistics (db : DB) (class_id semester_id : Nat) :
    ClassStatistics :=
  let students := activeStudentsOf db.students class_id
  if students.isEmpty then
    { mean := none, std_dev := none, student_count := 0 }
  else
    let averages := students.filterMap (fun s =>
      calculate_overall_average db s.id semester_id)
    if averages.isEmpty then
      { mean := none, std_dev := none, student_count := students.length }
    else
      let mean := averages.sum / (averages.length : ℚ)
      let std2 : ℚ :=
        if 1 < averages.length then
          sqrtRound2 ((averages.map (fun x => (x - mean) ^ 2)).sum /
            (averages.length : ℚ))
        else 0
      { mean := some (round2 mean), std_dev := some std2,
        student_count := averages.length }

/-- The enumerate loop of services.py lines 374-376: 1-based position of the
first pair whose student id matches, None when the loop is exhausted. -/
def findRank : Nat → List (Nat × ℚ) → Nat → Option Nat
  | _, [], _ => none
  | rank, (cid, _) :: rest, sid =>
      if cid = sid then some rank else findRank (rank + 1) rest sid

/-- Embedding of PerformanceCalculator._calculate_class_rank (services.py
lines 331-384).  The student_average parameter is accepted and unused exactly
as in the source body.  The Python list.sort(key=..., reverse=True) is a
stable descending sort by average; mergeSort with this comparator is the same
sort. -/
def _calculate_class_rank (db : DB) (student_id semester_id : Nat)
    (student_average : ℚ) : Option Nat :=
  match db.students.find? (fun s => s.id == student_id) with
  | none => none
  | some student =>
    let classmates := activeStudentsOf db.students student.class_assigned_id
    let averages : List (Nat × ℚ) := classmates.filterMap (fun c =>
      (calculate_overall_average db c.id semester_id).map (fun a => (c.id, a)))
    if averages.isEmpty then none
    else
      let sorted := averages.mergeSort (fun a b => decide (b.2 ≤ a.2))
      findRank 1 sorted student_id

/-- Semester.objects.filter(academic_year=..., start_date__lt=...)
.order_by(descending start_date).first() (services.py lines 282-285): the
first candidate with maximal start date among the semesters of the same
academic year that start strictly earlier. -/
def previousSemester (semesters : List Semester) (current : Semester) :
    Option Semester :=
  (semesters.filter (fun s =>
      s.academic_year == current.academic_year &&
      decide (s.start_date < current.start_date))).foldl
    (fun best s =>
      match best with
      | none => some s
      | some b => if b.start_date < s.start_date then some s else best) none

/-- One update_or_create call issued by recalculate_all_indicators: either a
subject-indicator upsert with defaults average only (services.py lines
268-273) or the overall upsert with all four value fields (lines 303-313). -/
inductive IndicatorWrite
  | subjectWrite (student_id semester_id subject_id : Nat) (avg : ℚ)
  | overallWrite (student_id semester_id : Nat) (avg : ℚ) (std : Option ℚ)
      (prog : Option ℚ) (rank : Option Nat)
deriving Repr, DecidableEq

/-- The unique_together key the upsert matches on. -/
def IndicatorWrite.key : IndicatorWrite → Nat × Nat × Option Nat
  | .subjectWrite sid semid subj _ => (sid, semid, some subj)
  | .overallWrite sid semid _ _ _ _ => (sid, semid, none)

/-- The defaults dict applied to a row: the subject upsert refreshes only
average, the overall upsert refreshes average, standard_deviation,
progression_percentage and class_rank. -/
def IndicatorWrite.applyVals : IndicatorWrite → PerformanceIndicator → PerformanceIndicator
  | .subjectWrite _ _ _ avg, i => { i with average := avg }
  | .overallWrite _ _ avg std prog rank, i =>
      { i with average := avg, standard_deviation := std,
               progression_percentage := prog, class_rank := rank }

/-- A fresh row as Django create builds it: key fields from the lookup kwargs,
defaults applied on top of null/zero field defaults. -/
def blankIndicator (k : Nat × Nat × Option Nat) : PerformanceIndicator :=
  { student_id := k.1, semester_id := k.2.1, subject_id := k.2.2,
    average := 0, standard_deviation := none, progression_percentage := none,
    class_rank := none, calculated_at := 0 }

/-- PerformanceIndicator.objects.update_or_create: update every row matching
the key (the schema's unique_together guarantees at most one) refreshing the
auto_now timestamp, or append a freshly created row. -/
def applyWrite (inds : List PerformanceIndicator) (w : IndicatorWrite) (t : Nat) :
    List PerformanceIndicator :=
  if inds.any (fun i => decide (i.key = w.key)) then
    inds.map (fun i =>
      if i.key = w.key then { w.applyVals i with calculated_at := t } else i)
  else
    inds ++ [{ w.applyVals (blankIndicator w.key) with calculated_at := t }]

/-- The sequence of upserts of one recalculation run, applied in program
order. -/
def applyWrites (inds : List PerformanceIndicator) (ws : List IndicatorWrite)
    (t : Nat) : List PerformanceIndicator :=
  ws.foldl (fun acc w => applyWrite acc w t) inds

/-- The upserts recalculate_all_indicators issues once both identifiers have
resolved (services.py lines 256-313): one subject write per grade whose
subject average exists, then the overall write when the overall average
exists, carrying progression (only when a previous semester was found), class
rank, and the std_dev field of the class statistics.  The source interleaves
these writes with the reads computing the later values, but every read
touches only the grade, student, subject and semester tables, which the
writes leave unchanged, so collecting the writes first is observationally
identical. -/
def recalcWritesFor (db : DB) (student : Student) (semester : Semester)
    (student_id semester_id : Nat) : List IndicatorWrite :=
  let gs := gradesFor db.grades student_id semester_id
  let subjectWrites := gs.filterMap (fun g =>
    (calculate_subject_average db student_id g.subject_id semester_id).map
      (fun avg => IndicatorWrite.subjectWrite student_id semester_id
        g.subject_id avg))
  match calculate_overall_average db student_id semester_id with
  | none => subjectWrites
  | some overall_avg =>
    let progression :=
      match previousSemester db.semesters semester with
      | none => none
      | some prev => calculate_progression db student_id semester_id prev.id
    let class_rank := _calculate_class_rank db student_id semester_id overall_avg
    let class_stats :=
      calculate_class_statistics db student.class_assigned_id semester_id
    subjectWrites ++
      [IndicatorWrite.overallWrite student_id semester_id overall_avg
        class_stats.std_dev progression class_rank]

/-- Embedding of PerformanceCalculator.recalculate_all_indicators
(services.py lines 231-329).  The Python function returns None on every
completed path; Student.DoesNotExist and Semester.DoesNotExist are caught,
logged and swallowed (lines 320-323), so the not-found paths also return
normally, leaving the database untouched.  Any other exception would be
re-raised (line 329), which the Except channel of the result records; no
operation of the embedded fragment can raise, so every reachable path yields
Except.ok.  The clock advances by one tick per invocation; rows written
during the run carry the invocation's timestamp. -/
def recalculate_all_indicators (db : DB) (student_id semester_id : Nat) :
    Except String Unit × DB :=
  match db.students.find? (fun s => s.id == student_id) with
  | none => (Except.ok (), db)
  | some student =>
    match db.semesters.find? (fun s => s.id == semester_id) with
    | none => (Except.ok (), db)
    | some semester =>
      let ws := recalcWritesFor db student semester student_id semester_id
      (Except.ok (),
        { db with indicators := applyWrites db.indicators ws db.now,
                  now := db.now + 1 })

/-- An indicator row with its auto_now timestamp normalised away: the claims
about idempotence compare rows up to calculated_at. -/
def stripTime (i : PerformanceIndicator) : PerformanceIndicator :=
  { i with calculated_at := 0 }

/-- Half-even rounding of an integer is the integer itself. -/
theorem roundHalfEvenInt_intCast (z : ℤ) : roundHalfEvenInt (z : ℚ) = z := by
  simp [roundHalfEvenInt, Int.floor_intCast]

/-- Half-even rounding moves a rational by at most one half, downwards. -/
theorem roundHalfEvenInt_ge (q : ℚ) : q - 1/2 ≤ (roundHalfEvenInt q : ℚ) := by
  have hfl := Int.floor_le q
  have hlt := Int.lt_floor_add_one q
  simp only [roundHalfEvenInt]
  split_ifs <;> push_cast <;> linarith

/-- Half-even rounding moves a rational by at most one half, upwards. -/
theorem roundHalfEvenInt_le (q : ℚ) : (roundHalfEvenInt q : ℚ) ≤ q + 1/2 := by
  have hfl := Int.floor_le q
  have hlt := Int.lt_floor_add_one q
  simp only [roundHalfEvenInt]
  split_ifs with h1 h2 h3
  · linarith
  · push_cast
    linarith
  · have h2' : q - (⌊q⌋ : ℚ) ≤ 1/2 := not_lt.mp h2
    linarith
  · push_cast
    have h2' : q - (⌊q⌋ : ℚ) ≤ 1/2 := not_lt.mp h2
    linarith

/-- Half-even rounding is monotone. -/
theorem roundHalfEvenInt_mono {a b : ℚ} (hab : a ≤ b) :
    roundHalfEvenInt a ≤ roundHalfEvenInt b := by
  by_contra h
  push_neg at h
  have h1 : (roundHalfEvenInt b : ℚ) + 1 ≤ (roundHalfEvenInt a : ℚ) := by
    exact_mod_cast Int.add_one_le_iff.mpr h
  have c1 := roundHalfEvenInt_le a
  have c2 := roundHalfEvenInt_ge b
  have hba : b ≤ a := by linarith
  have heq : a = b := le_antisymm hab hba
  rw [heq] at h
  exact lt_irrefl _ h

/-- Two-decimal rounding is monotone. -/
theorem round2_mono {a b : ℚ} (hab : a ≤ b) : round2 a ≤ round2 b := by
  unfold round2
  have : roundHalfEvenInt (a * 100) ≤ roundHalfEvenInt (b * 100) :=
    roundHalfEvenInt_mono (by linarith)
  have hc : (roundHalfEvenInt (a * 100) : ℚ) ≤ (roundHalfEvenInt (b * 100) : ℚ) := by
    exact_mod_cast this
  linarith

/-- Two-decimal rounding fixes every two-decimal value. -/
theorem round2_centi (z : ℤ) : round2 ((z : ℚ) / 100) = (z : ℚ) / 100 := by
  unfold round2
  rw [div_mul_cancel₀ (z : ℚ) (by norm_num : (100 : ℚ) ≠ 0), roundHalfEvenInt_intCast]

/-- Two-decimal rounding is idempotent. -/
theorem round2_idem (q : ℚ) : round2 (round2 q) = round2 q :=
  round2_centi (roundHalfEvenInt (q * 100))

/-- Every average produced by calculate_overall_average is already rounded to
two decimals. -/
theorem overall_average_rounded {db : DB} {sid semid : Nat} {q : ℚ}
    (h : calculate_overall_average db sid semid = some q) : round2 q = q := by
  simp only [calculate_overall_average, overallAverageCore] at h
  split_ifs at h
  cases h
  exact round2_idem _

/-- Evaluation rule for half-even rounding when the fractional part is below
one half. -/
theorem roundHalfEvenInt_eq_down (q : ℚ) (f : ℤ) (h1 : ⌊q⌋ = f)
    (h2 : q - (f : ℚ) < 1/2) : roundHalfEvenInt q = f := by
  simp only [roundHalfEvenInt, h1]
  rw [if_pos h2]

/-- Evaluation rule for half-even rounding when the fractional part is above
one half. -/
theorem roundHalfEvenInt_eq_up (q : ℚ) (f : ℤ) (h1 : ⌊q⌋ = f)
    (h2 : (1:ℚ)/2 < q - (f : ℚ)) : roundHalfEvenInt q = f + 1 := by
  simp only [roundHalfEvenInt, h1]
  rw [if_neg (by linarith), if_pos h2]

/-- Evaluation rule for round2 when rounding goes down. -/
theorem round2_eq_down (q : ℚ) (f : ℤ) (h1 : ⌊q * 100⌋ = f)
    (h2 : q * 100 - (f : ℚ) < 1/2) : round2 q = (f : ℚ) / 100 := by
  unfold round2
  rw [roundHalfEvenInt_eq_down _ f h1 h2]

/-- Evaluation rule for round2 when rounding goes up. -/
theorem round2_eq_up (q : ℚ) (f : ℤ) (h1 : ⌊q * 100⌋ = f)
    (h2 : (1:ℚ)/2 < q * 100 - (f : ℚ)) : round2 q = ((f : ℚ) + 1) / 100 := by
  unfold round2
  rw [roundHalfEvenInt_eq_up _ f h1 h2]
  push_cast
  ring

/-- The no-grades branch of calculate_overall_average (services.py lines
82-83). -/
theorem overall_none_of_no_grades (db : DB) (sid semid : Nat)
    (h : gradesFor db.grades sid semid = []) :
    calculate_overall_average db sid semid = none := by
  simp only [calculate_overall_average, overallAverageCore, h]
  rfl

/-- The zero-total-coefficient branch of calculate_overall_average
(services.py lines 94-99). -/
theorem overall_none_of_zero_coefficient (db : DB) (sid semid : Nat)
    (h : totalCoefficient db.subjects (gradesFor db.grades sid semid) = 0) :
    calculate_overall_average db sid semid = none := by
  simp only [calculate_overall_average, overallAverageCore, h]
  simp

/-- The successful branch of calculate_overall_average (services.py lines
85-103). -/
theorem overall_formula (db : DB) (sid semid : Nat)
    (h1 : gradesFor db.grades sid semid ≠ [])
    (h2 : totalCoefficient db.subjects (gradesFor db.grades sid semid) ≠ 0) :
    calculate_overall_average db sid semid =
      some (round2 (totalWeighted db.subjects (gradesFor db.grades sid semid) /
        totalCoefficient db.subjects (gradesFor db.grades sid semid))) := by
  simp only [calculate_overall_average, overallAverageCore]
  rw [if_neg (by simpa using h1), if_neg h2]

/-- Concrete state matching the worked example of the specification: one
student in one class, subjects with coefficients 2.00 and 1.50, grades 16.00
and 14.00 in one semester. -/
def exampleDB1 : DB :=
  { students := [{ id := 1, class_assigned_id := 1, is_active := true }],
    subjects := [{ id := 1, coefficient := 2 }, { id := 2, coefficient := 3/2 }],
    semesters := [{ id := 1, academic_year := "2024-2025", start_date := 10 }],
    grades := [{ student_id := 1, subject_id := 1, semester_id := 1, value := 16 },
               { student_id := 1, subject_id := 2, semester_id := 1, value := 14 }],
    indicators := [],
    now := 0 }

/-- C1: calculate_overall_average returns the coefficient-weighted mean, sum
of value times coefficient over sum of coefficients, rounded to two decimal
places (grades 16.00 with coefficient 2.00 and 14.00 with coefficient 1.50
yield 15.14), and returns None, without raising, when the student has no
grades that semester or the total coefficient sums to zero. -/
theorem claim_C1_overall_average (db : DB) (student_id semester_id : Nat) :
    (gradesFor db.grades student_id semester_id = [] →
      calculate_overall_average db student_id semester_id = none) ∧
    (totalCoefficient db.subjects (gradesFor db.grades student_id semester_id) = 0 →
      calculate_overall_average db student_id semester_id = none) ∧
    (gradesFor db.grades student_id semester_id ≠ [] →
      totalCoefficient db.subjects (gradesFor db.grades student_id semester_id) ≠ 0 →
      calculate_overall_average db student_id semester_id =
        some (round2 (totalWeighted db.subjects (gradesFor db.grades student_id semester_id) /
          totalCoefficient db.subjects (gradesFor db.grades student_id semester_id)))) ∧
    calculate_overall_average exampleDB1 1 1 = some (1514/100) := by
  refine ⟨overall_none_of_no_grades db student_id semester_id,
          overall_none_of_zero_coefficient db student_id semester_id,
          overall_formula db student_id semester_id, ?_⟩
  have htw : totalWeighted exampleDB1.subjects (gradesFor exampleDB1.grades 1 1) =
      16 * 2 + (14 * (3/2) + 0) := rfl
  have htc : totalCoefficient exampleDB1.subjects (gradesFor exampleDB1.grades 1 1) =
      2 + (3/2 + 0) := rfl
  rw [overall_formula exampleDB1 1 1
        (by simp [show gradesFor exampleDB1.grades 1 1 =
          [{ student_id := 1, subject_id := 1, semester_id := 1, value := 16 },
           { student_id := 1, subject_id := 2, semester_id := 1, value := 14 }] from rfl])
        (by rw [htc]; norm_num), htw, htc]
  rw [show ((16 * 2 + (14 * (3/2) + 0)) / (2 + (3/2 + 0)) : ℚ) = 106/7 by norm_num]
  rw [round2_eq_down ((106:ℚ)/7) 1514 (by rw [Int.floor_eq_iff]; norm_num) (by norm_num)]
  norm_num

/-- Witness for C1 at a concrete input: the example database has a non-empty
grade list with non-zero total coefficient, and the formula clause of the
theorem applies to it. -/
theorem claim_C1_overall_average_witness :
    calculate_overall_average exampleDB1 1 1 =
      some (round2 (totalWeighted exampleDB1.subjects (gradesFor exampleDB1.grades 1 1) /
        totalCoefficient exampleDB1.subjects (gradesFor exampleDB1.grades 1 1))) :=
  (claim_C1_overall_average exampleDB1 1 1).2.2.1
    (by simp [show gradesFor exampleDB1.grades 1 1 =
      [{ student_id := 1, subject_id := 1, semester_id := 1, value := 16 },
       { student_id := 1, subject_id := 2, semester_id := 1, value := 14 }] from rfl])
    (by rw [show totalCoefficient exampleDB1.subjects (gradesFor exampleDB1.grades 1 1) =
      2 + (3/2 + 0) from rfl]; norm_num)

/-- The current-average-unavailable branch of calculate_progression
(services.py lines 139-140). -/
theorem progression_none_of_current_none (db : DB) (sid cs ps : Nat)
    (h : calculate_overall_average db sid cs = none) :
    calculate_progression db sid cs ps = none := by
  unfold calculate_progression
  rw [h]

/-- The previous-average-unavailable branch of calculate_progression
(services.py lines 139-140). -/
theorem progression_none_of_previous_none (db : DB) (sid cs ps : Nat)
    (h : calculate_overall_average db sid ps = none) :
    calculate_progression db sid cs ps = none := by
  unfold calculate_progression
  rw [h]
  cases calculate_overall_average db sid cs <;> rfl

/-- The zero-previous-average branch of calculate_progression (services.py
lines 143-147). -/
theorem progression_none_of_previous_zero (db : DB) (sid cs ps : Nat)
    (h : calculate_overall_average db sid ps = some 0) :
    calculate_progression db sid cs ps = none := by
  unfold calculate_progression
  rw [h]
  cases calculate_overall_average db sid cs
  · rfl
  · simp

/-- The successful branch of calculate_progression (services.py lines
149-151). -/
theorem progression_formula (db : DB) (sid cs ps : Nat) (ca pa : ℚ)
    (hca : calculate_overall_average db sid cs = some ca)
    (hpa : calculate_overall_average db sid ps = some pa) (hpz : pa ≠ 0) :
    calculate_progression db sid cs ps = some (round2 ((ca - pa) / pa * 100)) := by
  unfold calculate_progression
  rw [hca, hpa]
  simp [hpz]

/-- Concrete state for the progression example: the same student has overall
average 14.00 in semester 1 and 16.00 in semester 2. -/
def exampleDB7 : DB :=
  { students := [{ id := 1, class_assigned_id := 1, is_active := true }],
    subjects := [{ id := 1, coefficient := 1 }],
    semesters := [{ id := 1, academic_year := "2024-2025", start_date := 10 },
                  { id := 2, academic_year := "2024-2025", start_date := 20 }],
    grades := [{ student_id := 1, subject_id := 1, semester_id := 1, value := 14 },
               { student_id := 1, subject_id := 1, semester_id := 2, value := 16 }],
    indicators := [],
    now := 0 }

/-- Overall average of the example student in semester 1 of exampleDB7. -/
theorem exampleDB7_prev_average : calculate_overall_average exampleDB7 1 1 = some 14 := by
  have htw : totalWeighted exampleDB7.subjects (gradesFor exampleDB7.grades 1 1) =
      14 * 1 + 0 := rfl
  have htc : totalCoefficient exampleDB7.subjects (gradesFor exampleDB7.grades 1 1) =
      1 + 0 := rfl
  rw [overall_formula exampleDB7 1 1
        (by simp [show gradesFor exampleDB7.grades 1 1 =
          [{ student_id := 1, subject_id := 1, semester_id := 1, value := 14 }] from rfl])
        (by rw [htc]; norm_num), htw, htc]
  rw [show ((14 * 1 + 0) / (1 + 0) : ℚ) = 14 by norm_num]
  rw [round2_eq_down (14:ℚ) 1400 (by rw [Int.floor_eq_iff]; norm_num) (by norm_num)]
  norm_num

/-- Overall average of the example student in semester 2 of exampleDB7. -/
theorem exampleDB7_curr_average : calculate_overall_average exampleDB7 1 2 = some 16 := by
  have htw : totalWeighted exampleDB7.subjects (gradesFor exampleDB7.grades 1 2) =
      16 * 1 + 0 := rfl
  have htc : totalCoefficient exampleDB7.subjects (gradesFor exampleDB7.grades 1 2) =
      1 + 0 := rfl
  rw [overall_formula exampleDB7 1 2
        (by simp [show gradesFor exampleDB7.grades 1 2 =
          [{ student_id := 1, subject_id := 1, semester_id := 2, value := 16 }] from rfl])
        (by rw [htc]; norm_num), htw, htc]
  rw [show ((16 * 1 + 0) / (1 + 0) : ℚ) = 16 by norm_num]
  rw [round2_eq_down (16:ℚ) 1600 (by rw [Int.floor_eq_iff]; norm_num) (by norm_num)]
  norm_num

/-- C7: calculate_progression returns the percentage change of the overall
average between two semesters rounded to two decimals (overall averages 14.00
then 16.00 give +14.29), and returns None whenever either overall average is
unavailable or the previous overall average is exactly zero. -/
theorem claim_C7_progression (db : DB) (sid cs ps : Nat) :
    ((calculate_overall_average db sid cs = none ∨
      calculate_overall_average db sid ps = none) →
      calculate_progression db sid cs ps = none) ∧
    (calculate_overall_average db sid ps = some 0 →
      calculate_progression db sid cs ps = none) ∧
    (∀ ca pa, calculate_overall_average db sid cs = some ca →
      calculate_overall_average db sid ps = some pa → pa ≠ 0 →
      calculate_progression db sid cs ps = some (round2 ((ca - pa) / pa * 100))) ∧
    calculate_progression exampleDB7 1 2 1 = some (1429/100) := by
  refine ⟨?_, progression_none_of_previous_zero db sid cs ps,
          fun ca pa hca hpa hpz => progression_formula db sid cs ps ca pa hca hpa hpz, ?_⟩
  · rintro (h | h)
    · exact progression_none_of_current_none db sid cs ps h
    · exact progression_none_of_previous_none db sid cs ps h
  · rw [progression_formula exampleDB7 1 2 1 16 14 exampleDB7_curr_average
          exampleDB7_prev_average (by norm_num)]
    rw [show ((16 - 14) / 14 * 100 : ℚ) = 100/7 by norm_num]
    rw [round2_eq_up ((100:ℚ)/7) 1428 (by rw [Int.floor_eq_iff]; norm_num) (by norm_num)]
    norm_num

/-- Witness for C7 at a concrete input: in the example database the current
and previous overall averages are 16.00 and 14.00, and the formula clause of
the theorem applies to them. -/
theorem claim_C7_progression_witness :
    calculate_progression exampleDB7 1 2 1 = some (round2 ((16 - 14) / 14 * 100)) :=
  (claim_C7_progression exampleDB7 1 2 1).2.2.1 16 14 exampleDB7_curr_average
    exampleDB7_prev_average (by norm_num)

/-- Concrete state for the class-statistics no-data path: one active student
on the roster of class 1 and no grades at all. -/
def exampleDB3 : DB :=
  { students := [{ id := 1, class_assigned_id := 1, is_active := true }],
    subjects := [],
    semesters := [{ id := 1, academic_year := "2024-2025", start_date := 10 }],
    grades := [],
    indicators := [],
    now := 0 }

/-- Counterexample to C3: with a non-empty roster and no computable overall
average, calculate_class_statistics returns student_count equal to the roster
size (here 1), not 0 as the claim states (services.py line 201 returns
len(students) on this path). -/
theorem claim_C3_counterexample :
    calculate_class_statistics exampleDB3 1 1 =
      { mean := none, std_dev := none, student_count := 1 } ∧
    activeStudentsOf exampleDB3.students 1 ≠ [] ∧
    (activeStudentsOf exampleDB3.students 1).filterMap
      (fun s => calculate_overall_average exampleDB3 s.id 1) = [] ∧
    (1 : Nat) ≠ 0 := by
  refine ⟨rfl, ?_, rfl, by decide⟩
  rw [show activeStudentsOf exampleDB3.students 1 =
    [{ id := 1, class_assigned_id := 1, is_active := true }] from rfl]
  simp

/-- C3 amended: when no active student of the class has a computable overall
average, calculate_class_statistics returns mean = None, std_dev = None and
student_count equal to the number of active students on the roster (0 only
when the roster itself is empty). -/
theorem claim_C3_amended (db : DB) (class_id semester_id : Nat)
    (h : (activeStudentsOf db.students class_id).filterMap
      (fun s => calculate_overall_average db s.id semester_id) = []) :
    calculate_class_statistics db class_id semester_id =
      { mean := none, std_dev := none,
        student_count := (activeStudentsOf db.students class_id).length } := by
  simp only [calculate_class_statistics]
  split_ifs with h1 h2 h3
  · have he : activeStudentsOf db.students class_id = [] := by simpa using h1
    rw [he]
    rfl
  · rfl
  · exact absurd (by simp [h]) h2
  · exact absurd (by simp [h]) h2

/-- Witness for the amended C3 at a concrete input: the roster of exampleDB3
is non-empty but nobody has a computable average. -/
theorem claim_C3_amended_witness :
    calculate_class_statistics exampleDB3 1 1 =
      { mean := none, std_dev := none,
        student_count := (activeStudentsOf exampleDB3.students 1).length } :=
  claim_C3_amended exampleDB3 1 1 rfl

/-- C10: a class whose roster yields exactly one computable overall average is
not a no-data case: calculate_class_statistics returns that average as the
mean, a concrete standard deviation of 0, and student_count 1 (services.py
lines 208-218, the len(averages) = 1 branch). -/
theorem claim_C10_single_student_stats (db : DB) (class_id semester_id : Nat) (a : ℚ)
    (h : (activeStudentsOf db.students class_id).filterMap
      (fun s => calculate_overall_average db s.id semester_id) = [a]) :
    calculate_class_statistics db class_id semester_id =
      { mean := some a, std_dev := some 0, student_count := 1 } := by
  have hmem : a ∈ (activeStudentsOf db.students class_id).filterMap
      (fun s => calculate_overall_average db s.id semester_id) := by
    rw [h]; simp
  obtain ⟨s, hs, hsa⟩ := List.mem_filterMap.mp hmem
  have hr : round2 a = a := overall_average_rounded hsa
  simp only [calculate_class_statistics]
  split_ifs with h1 h2 h3
  · have he : activeStudentsOf db.students class_id = [] := by simpa using h1
    rw [he] at h
    simp at h
  · rw [h] at h2
    simp at h2
  · rw [h] at h3
    simp at h3
  · rw [h]
    simp [hr]

/-- Witness for C10 at a concrete input: in exampleDB7, class 1 has exactly
one active student, whose overall average in semester 1 is 14.00. -/
theorem claim_C10_single_student_stats_witness :
    calculate_class_statistics exampleDB7 1 1 =
      { mean := some 14, std_dev := some 0, student_count := 1 } :=
  claim_C10_single_student_stats exampleDB7 1 1 14 (by
    rw [show activeStudentsOf exampleDB7.students 1 =
      [{ id := 1, class_assigned_id := 1, is_active := true }] from rfl]
    simp [List.filterMap, exampleDB7_prev_average])

/-- An upsert never leaves the indicator table empty. -/
theorem applyWrite_ne_nil (inds : List PerformanceIndicator) (w : IndicatorWrite)
    (t : Nat) : applyWrite inds w t ≠ [] := by
  unfold applyWrite
  split_ifs with h
  · intro hc
    rw [List.map_eq_nil_iff] at hc
    rw [hc] at h
    simp at h
  · simp

/-- Upserting preserves non-emptiness of the indicator table. -/
theorem applyWrites_ne_nil_of_ne_nil (ws : List IndicatorWrite)
    (inds : List PerformanceIndicator) (t : Nat) (h : inds ≠ []) :
    applyWrites inds ws t ≠ [] := by
  induction ws generalizing inds with
  | nil => exact h
  | cons w ws ih => exact ih (applyWrite inds w t) (applyWrite_ne_nil inds w t)

/-- A non-empty write list leaves the indicator table non-empty. -/
theorem applyWrites_ne_nil (w : IndicatorWrite) (ws : List IndicatorWrite)
    (inds : List PerformanceIndicator) (t : Nat) :
    applyWrites inds (w :: ws) t ≠ [] :=
  applyWrites_ne_nil_of_ne_nil ws (applyWrite inds w t) t (applyWrite_ne_nil inds w t)

/-- Counterexample to C2: student id 99 does not resolve in exampleDB1, the
run aborts without touching the database, yet the caller-visible outcome (the
Python return value, always None because both DoesNotExist handlers swallow
the exception, services.py lines 320-323) is identical to the outcome of the
successful run for the existing student 1, which does write indicator rows;
the caller cannot distinguish not-found from success. -/
theorem claim_C2_counterexample :
    exampleDB1.students.find? (fun s => s.id == 99) = none ∧
    (recalculate_all_indicators exampleDB1 99 1).1 =
      (recalculate_all_indicators exampleDB1 1 1).1 ∧
    (recalculate_all_indicators exampleDB1 99 1).2 = exampleDB1 ∧
    (recalculate_all_indicators exampleDB1 1 1).2.indicators ≠
      exampleDB1.indicators := by
  refine ⟨rfl, rfl, rfl, ?_⟩
  have hrec : (recalculate_all_indicators exampleDB1 1 1).2.indicators =
      applyWrites exampleDB1.indicators
        (recalcWritesFor exampleDB1
          { id := 1, class_assigned_id := 1, is_active := true }
          { id := 1, academic_year := "2024-2025", start_date := 10 } 1 1) 0 := rfl
  have hsw : (gradesFor exampleDB1.grades 1 1).filterMap (fun g =>
      (calculate_subject_average exampleDB1 1 g.subject_id 1).map
        (fun avg => IndicatorWrite.subjectWrite 1 1 g.subject_id avg)) =
      [IndicatorWrite.subjectWrite 1 1 1 16, IndicatorWrite.subjectWrite 1 1 2 14] := rfl
  rw [hrec]
  simp only [recalcWritesFor, hsw]
  cases calculate_overall_average exampleDB1 1 1 with
  | none => exact applyWrites_ne_nil _ _ _ _
  | some av => exact applyWrites_ne_nil _ _ _ _

/-- C2 amended: when the student or semester identifier does not resolve,
recalculateAll aborts without writing or modifying any indicator row and logs
the error, but returns None exactly as a successful run does: the not-found
condition is not reported to the caller in a way distinguishable from
success. -/
theorem claim_C2_amended (db : DB) (student_id semester_id : Nat)
    (h : db.students.find? (fun s => s.id == student_id) = none ∨
         db.semesters.find? (fun s => s.id == semester_id) = none) :
    recalculate_all_indicators db student_id semester_id = (Except.ok (), db) := by
  unfold recalculate_all_indicators
  rcases h with h | h
  · rw [h]
  · cases hs : db.students.find? (fun s => s.id == student_id) with
    | none => rfl
    | some st => rw [h]

/-- Witness for the amended C2 at a concrete input: student 99 does not exist
in exampleDB1 and the run returns normally with the database untouched. -/
theorem claim_C2_amended_witness :
    recalculate_all_indicators exampleDB1 99 1 = (Except.ok (), exampleDB1) :=
  claim_C2_amended exampleDB1 99 1 (Or.inl rfl)

/-- Applying a write's defaults never changes the row key. -/
theorem applyVals_time_key (w : IndicatorWrite) (i : PerformanceIndicator) (t : Nat) :
    ({ w.applyVals i with calculated_at := t } : PerformanceIndicator).key = i.key := by
  cases w <;> rfl

/-- A freshly created row carries the write's key. -/
theorem fresh_key (w : IndicatorWrite) (t : Nat) :
    ({ w.applyVals (blankIndicator w.key) with
        calculated_at := t } : PerformanceIndicator).key = w.key := by
  cases w <;> rfl

/-- The update pass of an upsert for a different key leaves the rows of a key
untouched. -/
theorem filter_map_update_ne (inds : List PerformanceIndicator)
    (w : IndicatorWrite) (t : Nat) (K : Nat × Nat × Option Nat) (hK : w.key ≠ K) :
    (inds.map (fun i =>
        if i.key = w.key then { w.applyVals i with calculated_at := t } else i)).filter
      (fun i => decide (i.key = K)) =
      inds.filter (fun i => decide (i.key = K)) := by
  induction inds with
  | nil => rfl
  | cons a I ih =>
    simp only [List.map_cons, List.filter_cons]
    by_cases ha : a.key = w.key
    · rw [if_pos ha]
      have hk : ({ w.applyVals a with calculated_at := t } :
          PerformanceIndicator).key = a.key := applyVals_time_key w a t
      have h1 : ¬ a.key = K := fun hc => hK (ha.symm.trans hc)
      simp only [hk, h1, decide_False]
      exact ih
    · rw [if_neg ha]
      by_cases haK : a.key = K
      · simp [haK, ih]
      · simp [haK, ih]

/-- An upsert for a different key leaves the rows of a key untouched. -/
theorem applyWrite_filter_ne (inds : List PerformanceIndicator)
    (w : IndicatorWrite) (t : Nat) (K : Nat × Nat × Option Nat) (hK : w.key ≠ K) :
    (applyWrite inds w t).filter (fun i => decide (i.key = K)) =
      inds.filter (fun i => decide (i.key = K)) := by
  unfold applyWrite
  split_ifs with hany
  · exact filter_map_update_ne inds w t K hK
  · rw [List.filter_append]
    have hsingle : (([{ w.applyVals (blankIndicator w.key) with calculated_at := t }] :
        List PerformanceIndicator).filter (fun i => decide (i.key = K))) = [] := by
      simp [fresh_key w t, hK]
    rw [hsingle, List.append_nil]

/-- A run of upserts none of which targets a key leaves the rows of that key
untouched. -/
theorem applyWrites_filter_ne (ws : List IndicatorWrite)
    (inds : List PerformanceIndicator) (t : Nat) (K : Nat × Nat × Option Nat)
    (h : ∀ w ∈ ws, w.key ≠ K) :
    (applyWrites inds ws t).filter (fun i => decide (i.key = K)) =
      inds.filter (fun i => decide (i.key = K)) := by
  induction ws generalizing inds with
  | nil => rfl
  | cons w ws ih =>
    have step := applyWrite_filter_ne inds w t K (h w (List.mem_cons_self w ws))
    have rest := ih (applyWrite inds w t) (fun w' hw' => h w' (List.mem_cons_of_mem w hw'))
    exact rest.trans step

/-- Shape of the writes issued by one recalculation run: every write is
either a subject write for a subject the student has a grade in, or the
single overall write. -/
theorem recalcWritesFor_shape (db : DB) (st : Student) (sem : Semester)
    (sid semid : Nat) :
    ∀ w ∈ recalcWritesFor db st sem sid semid,
      (∃ g ∈ gradesFor db.grades sid semid, ∃ a,
        w = IndicatorWrite.subjectWrite sid semid g.subject_id a) ∨
      (∃ a s p r, w = IndicatorWrite.overallWrite sid semid a s p r) := by
  intro w hw
  unfold recalcWritesFor at hw
  rcases hov : calculate_overall_average db sid semid with _ | av
  all_goals rw [hov] at hw
  · obtain ⟨g, hg, hmap⟩ := List.mem_filterMap.mp hw
    obtain ⟨a, _, ha2⟩ := Option.map_eq_some'.mp hmap
    exact Or.inl ⟨g, hg, a, ha2.symm⟩
  · rcases List.mem_append.mp hw with hl | hr
    · obtain ⟨g, hg, hmap⟩ := List.mem_filterMap.mp hl
      obtain ⟨a, _, ha2⟩ := Option.map_eq_some'.mp hmap
      exact Or.inl ⟨g, hg, a, ha2.symm⟩
    · rw [List.mem_singleton.mp hr]
      exact Or.inr ⟨av, _, _, _, rfl⟩

/-- Every completed run of the orchestrator returns normally. -/
theorem recalc_outcome_ok (db : DB) (sid semid : Nat) :
    (recalculate_all_indicators db sid semid).1 = Except.ok () := by
  unfold recalculate_all_indicators
  cases db.students.find? (fun s => s.id == sid) with
  | none => rfl
  | some st =>
    cases db.semesters.find? (fun s => s.id == semid) with
    | none => rfl
    | some sem => rfl

/-- A stale overall indicator row left over from before a grade deletion. -/
def staleOverallRow : PerformanceIndicator :=
  { student_id := 1, semester_id := 1, subject_id := none, average := 15,
    standard_deviation := some 0, progression_percentage := none,
    class_rank := some 1, calculated_at := 0 }

/-- A stale subject indicator row left over from before a grade deletion. -/
def staleSubjectRow : PerformanceIndicator :=
  { student_id := 1, semester_id := 1, subject_id := some 5, average := 15,
    standard_deviation := none, progression_percentage := none,
    class_rank := none, calculated_at := 0 }

/-- Concrete state after the deletion of the student's only grade: the grade
table is empty while the indicator rows written before the deletion (overall
and subject 5) are still present. -/
def exampleDB4 : DB :=
  { students := [{ id := 1, class_assigned_id := 1, is_active := true }],
    subjects := [{ id := 5, coefficient := 1 }],
    semesters := [{ id := 1, academic_year := "2024-2025", start_date := 10 }],
    grades := [],
    indicators := [staleOverallRow, staleSubjectRow],
    now := 1 }

/-- Counterexample to C4: after the deletion of the student's only grade,
recalculateAll completes without crashing and leaves every indicator row in
place, so a subject-specific indicator for subject 5 still exists afterwards
(recalculate_all_indicators never deletes rows; services.py lines 262-273
only upsert for subjects that still have grades). -/
theorem claim_C4_counterexample :
    gradesFor exampleDB4.grades 1 1 = [] ∧
    (recalculate_all_indicators exampleDB4 1 1).1 = Except.ok () ∧
    (recalculate_all_indicators exampleDB4 1 1).2.indicators =
      exampleDB4.indicators ∧
    ∃ i ∈ (recalculate_all_indicators exampleDB4 1 1).2.indicators,
      i.key = (1, 1, some 5) := by
  refine ⟨rfl, rfl, rfl, staleSubjectRow, ?_, rfl⟩
  rw [show (recalculate_all_indicators exampleDB4 1 1).2.indicators =
    [staleOverallRow, staleSubjectRow] from rfl]
  exact List.mem_cons_of_mem _ (List.mem_cons_self _ _)

/-- C4 amended: when the student has no grade for a subject in the semester,
recalculateAll completes without crashing and neither creates, updates nor
deletes any subject indicator for that subject: the rows with that key are
exactly the rows that existed before, so the indicator for the subject is
absent after the run if and only if it was absent before (a pre-existing
stale row, like a stale overall row, is left untouched). -/
theorem claim_C4_no_subject_indicator (db : DB) (sid semid subj : Nat)
    (h : ∀ g ∈ gradesFor db.grades sid semid, g.subject_id ≠ subj) :
    (recalculate_all_indicators db sid semid).1 = Except.ok () ∧
    (recalculate_all_indicators db sid semid).2.indicators.filter
        (fun i => decide (i.key = (sid, semid, some subj))) =
      db.indicators.filter (fun i => decide (i.key = (sid, semid, some subj))) := by
  refine ⟨recalc_outcome_ok db sid semid, ?_⟩
  unfold recalculate_all_indicators
  cases hs : db.students.find? (fun s => s.id == sid) with
  | none => rfl
  | some st =>
    cases hsem : db.semesters.find? (fun s => s.id == semid) with
    | none => rfl
    | some sem =>
      refine applyWrites_filter_ne _ _ _ _ ?_
      intro w hw
      rcases recalcWritesFor_shape db st sem sid semid w hw with
        ⟨g, hg, a, rfl⟩ | ⟨a, s2, p, r, rfl⟩
      · intro hc
        simp only [IndicatorWrite.key, Prod.mk.injEq, Option.some.injEq] at hc
        exact h g hg hc.2.2
      · intro hc
        simp only [IndicatorWrite.key, Prod.mk.injEq] at hc
        exact Option.noConfusion hc.2.2

/-- Witness for the amended C4 at a concrete input: in exampleDB4 the student
has no grade at all, the run completes normally and the stale subject-5 row
set is untouched. -/
theorem claim_C4_no_subject_indicator_witness :
    (recalculate_all_indicators exampleDB4 1 1).1 = Except.ok () ∧
    (recalculate_all_indicators exampleDB4 1 1).2.indicators.filter
        (fun i => decide (i.key = (1, 1, some 5))) =
      exampleDB4.indicators.filter (fun i => decide (i.key = (1, 1, some 5))) :=
  claim_C4_no_subject_indicator exampleDB4 1 1 5
    (by rw [show gradesFor exampleDB4.grades 1 1 = [] from rfl]; simp)

/-- C8: when the overall average is unavailable, the overall indicator
(subject = none) is neither created nor updated: the rows with the overall
key, including their timestamps, are exactly the rows that existed before
the run (services.py lines 280-313 only write the overall indicator inside
the if overall_avg is not None branch). -/
theorem claim_C8_stale_overall_untouched (db : DB) (sid semid : Nat)
    (h : calculate_overall_average db sid semid = none) :
    (recalculate_all_indicators db sid semid).2.indicators.filter
        (fun i => decide (i.key = (sid, semid, (none : Option Nat)))) =
      db.indicators.filter
        (fun i => decide (i.key = (sid, semid, (none : Option Nat)))) := by
  unfold recalculate_all_indicators
  cases hs : db.students.find? (fun s => s.id == sid) with
  | none => rfl
  | some st =>
    cases hsem : db.semesters.find? (fun s => s.id == semid) with
    | none => rfl
    | some sem =>
      refine applyWrites_filter_ne _ _ _ _ ?_
      intro w hw
      unfold recalcWritesFor at hw
      rw [h] at hw
      obtain ⟨g, hg, hmap⟩ := List.mem_filterMap.mp hw
      obtain ⟨a, _, ha2⟩ := Option.map_eq_some'.mp hmap
      rw [← ha2]
      intro hc
      simp only [IndicatorWrite.key, Prod.mk.injEq] at hc
      exact Option.some_ne_none _ hc.2.2

/-- Witness for C8 at a concrete input: in exampleDB4 the overall average is
unavailable and the stale overall row set is untouched. -/
theorem claim_C8_stale_overall_untouched_witness :
    (recalculate_all_indicators exampleDB4 1 1).2.indicators.filter
        (fun i => decide (i.key = (1, 1, (none : Option Nat)))) =
      exampleDB4.indicators.filter
        (fun i => decide (i.key = (1, 1, (none : Option Nat)))) :=
  claim_C8_stale_overall_untouched exampleDB4 1 1 rfl

/-- Values of the student's grades in the semester, in table order. -/
def gradeValues (db : DB) (sid semid : Nat) : List ℚ :=
  (gradesFor db.grades sid semid).map (fun g => g.value)

/-- Minimum of a list of rationals (0 for the empty list, which the claims
never hit). -/
def listMin : List ℚ → ℚ
  | [] => 0
  | v :: vs => vs.foldl min v

/-- Maximum of a list of rationals (0 for the empty list, which the claims
never hit). -/
def listMax : List ℚ → ℚ
  | [] => 0
  | v :: vs => vs.foldl max v

/-- A two-decimal value, as stored by the DecimalField columns. -/
def isCenti (q : ℚ) : Prop := ∃ z : ℤ, q = (z : ℚ) / 100

/-- A min-fold is bounded by its initial accumulator. -/
theorem foldl_min_le_init (l : List ℚ) (a : ℚ) : l.foldl min a ≤ a := by
  induction l generalizing a with
  | nil => exact le_refl a
  | cons b l ih => exact le_trans (ih (min a b)) (min_le_left a b)

/-- A min-fold is bounded by every list element. -/
theorem foldl_min_le_mem {l : List ℚ} {x : ℚ} (hx : x ∈ l) (a : ℚ) :
    l.foldl min a ≤ x := by
  induction l generalizing a with
  | nil => cases hx
  | cons b l ih =>
    rcases List.mem_cons.mp hx with rfl | hx'
    · exact le_trans (foldl_min_le_init l (min a x)) (min_le_right a x)
    · exact ih hx' (min a b)

/-- A min-fold returns its accumulator or a list element. -/
theorem foldl_min_mem (l : List ℚ) (a : ℚ) :
    l.foldl min a = a ∨ l.foldl min a ∈ l := by
  induction l generalizing a with
  | nil => exact Or.inl rfl
  | cons b l ih =>
    rcases ih (min a b) with h | h
    · rcases min_choice a b with hm | hm
      · exact Or.inl (by rw [List.foldl_cons, h, hm])
      · exact Or.inr (by rw [List.foldl_cons, h, hm]; exact List.mem_cons_self b l)
    · exact Or.inr (List.mem_cons_of_mem b h)

/-- A max-fold is bounded below by its initial accumulator. -/
theorem foldl_max_ge_init (l : List ℚ) (a : ℚ) : a ≤ l.foldl max a := by
  induction l generalizing a with
  | nil => exact le_refl a
  | cons b l ih => exact le_trans (le_max_left a b) (ih (max a b))

/-- A max-fold is bounded below by every list element. -/
theorem foldl_max_ge_mem {l : List ℚ} {x : ℚ} (hx : x ∈ l) (a : ℚ) :
    x ≤ l.foldl max a := by
  induction l generalizing a with
  | nil => cases hx
  | cons b l ih =>
    rcases List.mem_cons.mp hx with rfl | hx'
    · exact le_trans (le_max_right a x) (foldl_max_ge_init l (max a x))
    · exact ih hx' (max a b)

/-- A max-fold returns its accumulator or a list element. -/
theorem foldl_max_mem (l : List ℚ) (a : ℚ) :
    l.foldl max a = a ∨ l.foldl max a ∈ l := by
  induction l generalizing a with
  | nil => exact Or.inl rfl
  | cons b l ih =>
    rcases ih (max a b) with h | h
    · rcases max_choice a b with hm | hm
      · exact Or.inl (by rw [List.foldl_cons, h, hm])
      · exact Or.inr (by rw [List.foldl_cons, h, hm]; exact List.mem_cons_self b l)
    · exact Or.inr (List.mem_cons_of_mem b h)

/-- listMin bounds every element from below. -/
theorem listMin_le {l : List ℚ} {x : ℚ} (hx : x ∈ l) : listMin l ≤ x := by
  cases l with
  | nil => cases hx
  | cons v vs =>
    rcases List.mem_cons.mp hx with rfl | hx'
    · exact foldl_min_le_init vs x
    · exact foldl_min_le_mem hx' v

/-- listMin of a non-empty list is one of its elements. -/
theorem listMin_mem {l : List ℚ} (h : l ≠ []) : listMin l ∈ l := by
  cases l with
  | nil => exact absurd rfl h
  | cons v vs =>
    rcases foldl_min_mem vs v with hm | hm
    · rw [listMin, hm]; exact List.mem_cons_self v vs
    · exact List.mem_cons_of_mem v hm

/-- listMax bounds every element from above. -/
theorem listMax_ge {l : List ℚ} {x : ℚ} (hx : x ∈ l) : x ≤ listMax l := by
  cases l with
  | nil => cases hx
  | cons v vs =>
    rcases List.mem_cons.mp hx with rfl | hx'
    · exact foldl_max_ge_init vs x
    · exact foldl_max_ge_mem hx' v

/-- listMax of a non-empty list is one of its elements. -/
theorem listMax_mem {l : List ℚ} (h : l ≠ []) : listMax l ∈ l := by
  cases l with
  | nil => exact absurd rfl h
  | cons v vs =>
    rcases foldl_max_mem vs v with hm | hm
    · rw [listMax, hm]; exact List.mem_cons_self v vs
    · exact List.mem_cons_of_mem v hm

/-- Coefficients are nonnegative on every grade set whose coefficients are
positive, so the total is nonnegative. -/
theorem totalCoefficient_nonneg (subjects : List Subject) (gs : List Grade)
    (hpos : ∀ g ∈ gs, 0 ≤ coefficientOf subjects g.subject_id) :
    0 ≤ totalCoefficient subjects gs := by
  induction gs with
  | nil => simp [totalCoefficient]
  | cons g gs ih =>
    have h1 := hpos g (List.mem_cons_self g gs)
    have h2 := ih (fun g' hg' => hpos g' (List.mem_cons_of_mem g hg'))
    simp only [totalCoefficient, List.map_cons, List.sum_cons] at h2 ⊢
    linarith

/-- The total coefficient of a non-empty grade set with positive coefficients
is positive. -/
theorem totalCoefficient_pos (subjects : List Subject) (g : Grade) (gs : List Grade)
    (hpos : ∀ g' ∈ g :: gs, 0 < coefficientOf subjects g'.subject_id) :
    0 < totalCoefficient subjects (g :: gs) := by
  have h1 := hpos g (List.mem_cons_self g gs)
  have h2 := totalCoefficient_nonneg subjects gs
    (fun g' hg' => le_of_lt (hpos g' (List.mem_cons_of_mem g hg')))
  simp only [totalCoefficient, List.map_cons, List.sum_cons] at h2 ⊢
  linarith

/-- Lower bound for the weighted sum: every value at least lo gives a
weighted sum at least lo times the total coefficient. -/
theorem totalWeighted_ge (subjects : List Subject) (gs : List Grade) (lo : ℚ)
    (hlo : ∀ g ∈ gs, lo ≤ g.value)
    (hpos : ∀ g ∈ gs, 0 ≤ coefficientOf subjects g.subject_id) :
    lo * totalCoefficient subjects gs ≤ totalWeighted subjects gs := by
  induction gs with
  | nil => simp [totalCoefficient, totalWeighted]
  | cons g gs ih =>
    have h1 := mul_le_mul_of_nonneg_right (hlo g (List.mem_cons_self g gs))
      (hpos g (List.mem_cons_self g gs))
    have h2 := ih (fun g' hg' => hlo g' (List.mem_cons_of_mem g hg'))
      (fun g' hg' => hpos g' (List.mem_cons_of_mem g hg'))
    simp only [totalCoefficient, totalWeighted, List.map_cons, List.sum_cons] at h2 ⊢
    ring_nf
    ring_nf at h1 h2
    linarith

/-- Upper bound for the weighted sum: every value at most hi gives a weighted
sum at most hi times the total coefficient. -/
theorem totalWeighted_le (subjects : List Subject) (gs : List Grade) (hi : ℚ)
    (hhi : ∀ g ∈ gs, g.value ≤ hi)
    (hpos : ∀ g ∈ gs, 0 ≤ coefficientOf subjects g.subject_id) :
    totalWeighted subjects gs ≤ hi * totalCoefficient subjects gs := by
  induction gs with
  | nil => simp [totalCoefficient, totalWeighted]
  | cons g gs ih =>
    have h1 := mul_le_mul_of_nonneg_right (hhi g (List.mem_cons_self g gs))
      (hpos g (List.mem_cons_self g gs))
    have h2 := ih (fun g' hg' => hhi g' (List.mem_cons_of_mem g hg'))
      (fun g' hg' => hpos g' (List.mem_cons_of_mem g hg'))
    simp only [totalCoefficient, totalWeighted, List.map_cons, List.sum_cons] at h2 ⊢
    ring_nf
    ring_nf at h1 h2
    linarith

/-- C9: for every non-empty set of grades whose subjects all have positive
coefficients (and whose values are two-decimal numbers, as the DecimalField
schema guarantees), the overall average lies within the closed interval from
the minimum to the maximum grade value. -/
theorem claim_C9_average_bounds (db : DB) (sid semid : Nat)
    (hne : gradesFor db.grades sid semid ≠ [])
    (hpos : ∀ g ∈ gradesFor db.grades sid semid,
      0 < coefficientOf db.subjects g.subject_id)
    (hcent : ∀ g ∈ gradesFor db.grades sid semid, isCenti g.value) :
    ∃ q, calculate_overall_average db sid semid = some q ∧
      listMin (gradeValues db sid semid) ≤ q ∧
      q ≤ listMax (gradeValues db sid semid) := by
  have htcpos : 0 < totalCoefficient db.subjects (gradesFor db.grades sid semid) := by
    cases hgs : gradesFor db.grades sid semid with
    | nil => exact absurd hgs hne
    | cons g gs => exact totalCoefficient_pos db.subjects g gs (hgs ▸ hpos)
  have hform := overall_formula db sid semid hne (ne_of_gt htcpos)
  refine ⟨_, hform, ?_, ?_⟩
  · -- lower bound
    have hvne0 : gradeValues db sid semid ≠ [] := by
      intro hc
      exact hne (List.map_eq_nil_iff.mp hc)
    obtain ⟨gm, hgm, hgmv⟩ := List.mem_map.mp (listMin_mem hvne0)
    obtain ⟨zlo, hzlo⟩ := hcent gm hgm
    have hlo : ∀ g ∈ gradesFor db.grades sid semid,
        listMin (gradeValues db sid semid) ≤ g.value := by
      intro g hg
      exact listMin_le (List.mem_map_of_mem (fun g => g.value) hg)
    have hsum := totalWeighted_ge db.subjects (gradesFor db.grades sid semid)
      (listMin (gradeValues db sid semid)) hlo
      (fun g hg => le_of_lt (hpos g hg))
    have hdiv : listMin (gradeValues db sid semid) ≤
        totalWeighted db.subjects (gradesFor db.grades sid semid) /
          totalCoefficient db.subjects (gradesFor db.grades sid semid) :=
      (le_div_iff₀ htcpos).mpr hsum
    have hmono := round2_mono hdiv
    have hfix : round2 (listMin (gradeValues db sid semid)) =
        listMin (gradeValues db sid semid) := by
      simp only [gradeValues]
      rw [← hgmv, hzlo]
      exact round2_centi zlo
    rw [hfix] at hmono
    exact hmono
  · -- upper bound
    have hvne : gradeValues db sid semid ≠ [] := by
      intro hc
      exact hne (List.map_eq_nil_iff.mp hc)
    obtain ⟨gm, hgm, hgmv⟩ := List.mem_map.mp (listMax_mem hvne)
    obtain ⟨zhi, hzhi⟩ := hcent gm hgm
    have hhi : ∀ g ∈ gradesFor db.grades sid semid,
        g.value ≤ listMax (gradeValues db sid semid) := by
      intro g hg
      exact listMax_ge (List.mem_map_of_mem (fun g => g.value) hg)
    have hsum := totalWeighted_le db.subjects (gradesFor db.grades sid semid)
      (listMax (gradeValues db sid semid)) hhi
      (fun g hg => le_of_lt (hpos g hg))
    have hdiv : totalWeighted db.subjects (gradesFor db.grades sid semid) /
          totalCoefficient db.subjects (gradesFor db.grades sid semid) ≤
        listMax (gradeValues db sid semid) :=
      (div_le_iff₀ htcpos).mpr hsum
    have hmono := round2_mono hdiv
    have hfix : round2 (listMax (gradeValues db sid semid)) =
        listMax (gradeValues db sid semid) := by
      simp only [gradeValues]
      rw [← hgmv, hzhi]
      exact round2_centi zhi
    rw [hfix] at hmono
    exact hmono

/-- Witness for C9 at a concrete input: both grades of exampleDB1 have
positive coefficients and two-decimal values, and the overall average 15.14
lies between 14.00 and 16.00. -/
theorem claim_C9_average_bounds_witness :
    ∃ q, calculate_overall_average exampleDB1 1 1 = some q ∧
      listMin (gradeValues exampleDB1 1 1) ≤ q ∧
      q ≤ listMax (gradeValues exampleDB1 1 1) :=
  claim_C9_average_bounds exampleDB1 1 1
    (by simp [show gradesFor exampleDB1.grades 1 1 =
      [{ student_id := 1, subject_id := 1, semester_id := 1, value := 16 },
       { student_id := 1, subject_id := 2, semester_id := 1, value := 14 }] from rfl])
    (by
      rw [show gradesFor exampleDB1.grades 1 1 =
        [{ student_id := 1, subject_id := 1, semester_id := 1, value := 16 },
         { student_id := 1, subject_id := 2, semester_id := 1, value := 14 }] from rfl]
      intro g hg
      rcases List.mem_cons.mp hg with rfl | hg'
      · rw [show coefficientOf exampleDB1.subjects 1 = 2 from rfl]
        norm_num
      · rcases List.mem_cons.mp hg' with rfl | hg''
        · rw [show coefficientOf exampleDB1.subjects 2 = 3/2 from rfl]
          norm_num
        · cases hg'')
    (by
      rw [show gradesFor exampleDB1.grades 1 1 =
        [{ student_id := 1, subject_id := 1, semester_id := 1, value := 16 },
         { student_id := 1, subject_id := 2, semester_id := 1, value := 14 }] from rfl]
      intro g hg
      rcases List.mem_cons.mp hg with rfl | hg'
      · exact ⟨1600, by norm_num⟩
      · rcases List.mem_cons.mp hg' with rfl | hg''
        · exact ⟨1400, by norm_num⟩
        · cases hg'')

/-- A key is present in an indicator table. -/
def hasKey (inds : List PerformanceIndicator) (k : Nat × Nat × Option Nat) : Prop :=
  ∃ i ∈ inds, i.key = k

/-- Applying the same defaults twice is the same as applying them once. -/
theorem applyVals_idem (w : IndicatorWrite) (i : PerformanceIndicator) :
    w.applyVals (w.applyVals i) = w.applyVals i := by
  cases w <;> rfl

/-- Normalising the timestamp commutes with applying a write's defaults. -/
theorem stripTime_applyVals (w : IndicatorWrite) (i : PerformanceIndicator) (t : Nat) :
    stripTime { w.applyVals i with calculated_at := t } = w.applyVals (stripTime i) := by
  cases w <;> rfl

/-- An upsert preserves the presence of every key. -/
theorem hasKey_applyWrite (I : List PerformanceIndicator) (w : IndicatorWrite)
    (t : Nat) (k : Nat × Nat × Option Nat) (h : hasKey I k) :
    hasKey (applyWrite I w t) k := by
  obtain ⟨i, hi, hk⟩ := h
  unfold applyWrite
  split_ifs with hany
  · refine ⟨if i.key = w.key then { w.applyVals i with calculated_at := t } else i,
      List.mem_map_of_mem _ hi, ?_⟩
    by_cases hik : i.key = w.key
    · rw [if_pos hik, applyVals_time_key]
      exact hk
    · rw [if_neg hik]
      exact hk
  · exact ⟨i, List.mem_append_left _ hi, hk⟩

/-- An upsert establishes the presence of its own key. -/
theorem applyWrite_hasKey_self (I : List PerformanceIndicator) (w : IndicatorWrite)
    (t : Nat) : hasKey (applyWrite I w t) w.key := by
  unfold applyWrite
  split_ifs with hany
  · obtain ⟨i, hi, hdec⟩ := List.any_eq_true.mp hany
    have hik : i.key = w.key := of_decide_eq_true hdec
    refine ⟨_, List.mem_map_of_mem _ hi, ?_⟩
    rw [if_pos hik, applyVals_time_key]
    exact hik
  · exact ⟨_, List.mem_append_right _ (List.mem_singleton_self _), fresh_key w t⟩

/-- A run of upserts preserves the presence of every key. -/
theorem hasKey_applyWrites (ws : List IndicatorWrite) (I : List PerformanceIndicator)
    (t : Nat) (k : Nat × Nat × Option Nat) (h : hasKey I k) :
    hasKey (applyWrites I ws t) k := by
  induction ws generalizing I with
  | nil => exact h
  | cons w ws ih => exact ih (applyWrite I w t) (hasKey_applyWrite I w t k h)

/-- After a run of upserts every written key is present. -/
theorem applyWrites_hasKey_all (ws : List IndicatorWrite)
    (I : List PerformanceIndicator) (t : Nat) :
    ∀ w ∈ ws, hasKey (applyWrites I ws t) w.key := by
  induction ws generalizing I with
  | nil => intro w hw; cases hw
  | cons w0 ws ih =>
    intro w hw
    rcases List.mem_cons.mp hw with rfl | hw'
    · exact hasKey_applyWrites ws (applyWrite I w t) t w.key (applyWrite_hasKey_self I w t)
    · exact ih (applyWrite I w0 t) w hw'

/-- A row whose key differs from the write's key already existed before the
upsert. -/
theorem applyWrite_mem_of_key_ne (I : List PerformanceIndicator) (w : IndicatorWrite)
    (t : Nat) {i : PerformanceIndicator} (hi : i ∈ applyWrite I w t)
    (hk : i.key ≠ w.key) : i ∈ I := by
  unfold applyWrite at hi
  split_ifs at hi with hany
  · obtain ⟨i0, hi0, heq⟩ := List.mem_map.mp hi
    by_cases h0 : i0.key = w.key
    · rw [if_pos h0] at heq
      exfalso
      apply hk
      rw [← heq, applyVals_time_key]
      exact h0
    · rw [if_neg h0] at heq
      rw [← heq]
      exact hi0
  · rcases List.mem_append.mp hi with h | h
    · exact h
    · exfalso
      rw [List.mem_singleton.mp h] at hk
      exact hk (fresh_key w t)

/-- A row of a key none of the upserts targets already existed before the
run. -/
theorem applyWrites_mem_of_key_notin (ws : List IndicatorWrite)
    (I : List PerformanceIndicator) (t : Nat) (k : Nat × Nat × Option Nat)
    (hws : ∀ w ∈ ws, w.key ≠ k) {i : PerformanceIndicator}
    (hi : i ∈ applyWrites I ws t) (hk : i.key = k) : i ∈ I := by
  induction ws generalizing I with
  | nil => exact hi
  | cons w ws ih =>
    have step := ih (applyWrite I w t)
      (fun w' hw' => hws w' (List.mem_cons_of_mem w hw')) hi
    exact applyWrite_mem_of_key_ne I w t step
      (fun hc => hws w (List.mem_cons_self w ws) (hc.symm.trans hk))

/-- A row carrying the write's key after the upsert is the write's defaults
applied to some row. -/
theorem applyWrite_mem_key_eq (I : List PerformanceIndicator) (w : IndicatorWrite)
    (t : Nat) {i : PerformanceIndicator} (hi : i ∈ applyWrite I w t)
    (hk : i.key = w.key) :
    ∃ x, i = { w.applyVals x with calculated_at := t } := by
  unfold applyWrite at hi
  split_ifs at hi with hany
  · obtain ⟨i0, hi0, heq⟩ := List.mem_map.mp hi
    by_cases h0 : i0.key = w.key
    · rw [if_pos h0] at heq
      exact ⟨i0, heq.symm⟩
    · rw [if_neg h0] at heq
      exfalso
      apply h0
      rw [heq]
      exact hk
  · rcases List.mem_append.mp hi with h | h
    · exfalso
      apply hany
      exact List.any_eq_true.mpr ⟨i, h, decide_eq_true hk⟩
    · exact ⟨blankIndicator w.key, List.mem_singleton.mp h⟩

/-- After a run of key-consistent upserts, every row at a written key already
carries the written values: re-applying the write's defaults changes nothing
up to the timestamp. -/
theorem applyWrites_post (ws : List IndicatorWrite)
    (hcons : ∀ w ∈ ws, ∀ w' ∈ ws, w.key = w'.key → w = w') :
    ∀ (I : List PerformanceIndicator) (t : Nat), ∀ w ∈ ws,
      ∀ i ∈ applyWrites I ws t, i.key = w.key →
        w.applyVals (stripTime i) = stripTime i := by
  induction ws with
  | nil => intro I t w hw; cases hw
  | cons w0 ws ih =>
    intro I t w hw i hi hik
    by_cases hmem : w ∈ ws
    · exact ih
        (fun a ha b hb hab =>
          hcons a (List.mem_cons_of_mem w0 ha) b (List.mem_cons_of_mem w0 hb) hab)
        (applyWrite I w0 t) t w hmem i hi hik
    · have hw0 : w = w0 := by
        rcases List.mem_cons.mp hw with h | h
        · exact h
        · exact absurd h hmem
      subst hw0
      have hnot : ∀ w' ∈ ws, w'.key ≠ w.key := by
        intro w' hw' hc
        have := hcons w' (List.mem_cons_of_mem w hw') w (List.mem_cons_self w ws) hc
        exact hmem (this ▸ hw')
      have hi' : i ∈ applyWrite I w t :=
        applyWrites_mem_of_key_notin ws (applyWrite I w t) t w.key hnot hi hik
      obtain ⟨x, hx⟩ := applyWrite_mem_key_eq I w t hi' hik
      rw [hx, stripTime_applyVals]
      exact applyVals_idem w (stripTime x)

/-- Re-running a pass of upserts on a table that already holds the written
values and keys changes nothing up to timestamps. -/
theorem applyWrites_stable (ws : List IndicatorWrite) :
    ∀ (J : List PerformanceIndicator) (t : Nat),
      (∀ w ∈ ws, hasKey J w.key) →
      (∀ w ∈ ws, ∀ i ∈ J, i.key = w.key → w.applyVals (stripTime i) = stripTime i) →
      (applyWrites J ws t).map stripTime = J.map stripTime := by
  induction ws with
  | nil => intro J t _ _; rfl
  | cons w ws ih =>
    intro J t hpres hstab
    have hkey : hasKey J w.key := hpres w (List.mem_cons_self w ws)
    have hany : (J.any fun i => decide (i.key = w.key)) = true := by
      obtain ⟨i, hi, hk⟩ := hkey
      exact List.any_eq_true.mpr ⟨i, hi, decide_eq_true hk⟩
    have step1 : applyWrite J w t = J.map (fun i =>
        if i.key = w.key then { w.applyVals i with calculated_at := t } else i) := by
      unfold applyWrite
      rw [if_pos hany]
    have step2 : (applyWrite J w t).map stripTime = J.map stripTime := by
      rw [step1, List.map_map]
      apply List.map_congr_left
      intro i hi
      simp only [Function.comp_apply]
      by_cases hik : i.key = w.key
      · rw [if_pos hik, stripTime_applyVals]
        exact hstab w (List.mem_cons_self w ws) i hi hik
      · rw [if_neg hik]
    have hpres' : ∀ w' ∈ ws, hasKey (applyWrite J w t) w'.key :=
      fun w' hw' => hasKey_applyWrite J w t w'.key (hpres w' (List.mem_cons_of_mem w hw'))
    have hstab' : ∀ w' ∈ ws, ∀ i' ∈ applyWrite J w t, i'.key = w'.key →
        w'.applyVals (stripTime i') = stripTime i' := by
      intro w' hw' i' hi' hik'
      rw [step1] at hi'
      obtain ⟨i, hi, heq⟩ := List.mem_map.mp hi'
      by_cases hik : i.key = w.key
      · rw [if_pos hik] at heq
        have hstrip : stripTime i' = stripTime i := by
          rw [← heq, stripTime_applyVals]
          exact hstab w (List.mem_cons_self w ws) i hi hik
        have hkeys : i'.key = i.key := by
          rw [← heq, applyVals_time_key]
        rw [hstrip]
        exact hstab w' (List.mem_cons_of_mem w hw') i hi (hkeys.symm.trans hik')
      · rw [if_neg hik] at heq
        subst heq
        exact hstab w' (List.mem_cons_of_mem w hw') i hi hik'
    calc (applyWrites J (w :: ws) t).map stripTime
        = (applyWrites (applyWrite J w t) ws t).map stripTime := rfl
      _ = (applyWrite J w t).map stripTime := ih (applyWrite J w t) t hpres' hstab'
      _ = J.map stripTime := step2

/-- Applying the same key-consistent pass of upserts twice gives the same
rows as applying it once, up to the timestamps. -/
theorem applyWrites_idem_strip (ws : List IndicatorWrite)
    (I : List PerformanceIndicator) (t1 t2 : Nat)
    (hcons : ∀ w ∈ ws, ∀ w' ∈ ws, w.key = w'.key → w = w') :
    (applyWrites (applyWrites I ws t1) ws t2).map stripTime =
      (applyWrites I ws t1).map stripTime :=
  applyWrites_stable ws (applyWrites I ws t1) t2
    (applyWrites_hasKey_all ws I t1)
    (fun w hw i hi hik => applyWrites_post ws hcons I t1 w hw i hi hik)

/-- Value-level characterisation of the writes of one recalculation run:
each subject write carries the subject average of its key, and the overall
write carries exactly the overall average, std_dev, progression and rank
computed for the run. -/
theorem recalcWritesFor_char (db : DB) (st : Student) (sem : Semester)
    (sid semid : Nat) :
    ∀ w ∈ recalcWritesFor db st sem sid semid,
      (∃ subj a, w = IndicatorWrite.subjectWrite sid semid subj a ∧
        calculate_subject_average db sid subj semid = some a) ∨
      (∃ av, calculate_overall_average db sid semid = some av ∧
        w = IndicatorWrite.overallWrite sid semid av
          (calculate_class_statistics db st.class_assigned_id semid).std_dev
          (match previousSemester db.semesters sem with
           | none => none
           | some prev => calculate_progression db sid semid prev.id)
          (_calculate_class_rank db sid semid av)) := by
  intro w hw
  unfold recalcWritesFor at hw
  rcases hov : calculate_overall_average db sid semid with _ | av
  all_goals rw [hov] at hw
  · obtain ⟨g, hg, hmap⟩ := List.mem_filterMap.mp hw
    obtain ⟨a, ha1, ha2⟩ := Option.map_eq_some'.mp hmap
    exact Or.inl ⟨g.subject_id, a, ha2.symm, ha1⟩
  · rcases List.mem_append.mp hw with hl | hr
    · obtain ⟨g, hg, hmap⟩ := List.mem_filterMap.mp hl
      obtain ⟨a, ha1, ha2⟩ := Option.map_eq_some'.mp hmap
      exact Or.inl ⟨g.subject_id, a, ha2.symm, ha1⟩
    · rw [List.mem_singleton.mp hr]
      exact Or.inr ⟨av, rfl, rfl⟩

/-- Two writes of the same run that target the same key are the same write:
the written values are functions of the key alone. -/
theorem recalcWritesFor_consistent (db : DB) (st : Student) (sem : Semester)
    (sid semid : Nat) :
    ∀ w ∈ recalcWritesFor db st sem sid semid,
      ∀ w' ∈ recalcWritesFor db st sem sid semid, w.key = w'.key → w = w' := by
  intro w hw w' hw' hk
  rcases recalcWritesFor_char db st sem sid semid w hw with
    ⟨s1, a1, rfl, hav1⟩ | ⟨av1, hov1, rfl⟩
  · rcases recalcWritesFor_char db st sem sid semid w' hw' with
      ⟨s2, a2, rfl, hav2⟩ | ⟨av2, hov2, rfl⟩
    · simp only [IndicatorWrite.key, Prod.mk.injEq, Option.some.injEq] at hk
      obtain rfl : s1 = s2 := hk.2.2
      rw [hav1] at hav2
      obtain rfl : a1 = a2 := Option.some.inj hav2
      rfl
    · simp only [IndicatorWrite.key, Prod.mk.injEq] at hk
      exact absurd hk.2.2 (Option.some_ne_none _)
  · rcases recalcWritesFor_char db st sem sid semid w' hw' with
      ⟨s2, a2, rfl, hav2⟩ | ⟨av2, hov2, rfl⟩
    · simp only [IndicatorWrite.key, Prod.mk.injEq] at hk
      exact absurd hk.2.2.symm (Option.some_ne_none _)
    · rw [hov1] at hov2
      obtain rfl : av1 = av2 := Option.some.inj hov2
      rfl

/-- The not-found branch on the student lookup (services.py lines 320-321). -/
theorem recalc_student_none (db : DB) (sid semid : Nat)
    (hs : db.students.find? (fun s => s.id == sid) = none) :
    recalculate_all_indicators db sid semid = (Except.ok (), db) := by
  unfold recalculate_all_indicators
  rw [hs]

/-- The not-found branch on the semester lookup (services.py lines 322-323). -/
theorem recalc_semester_none (db : DB) (sid semid : Nat)
    (hsem : db.semesters.find? (fun s => s.id == semid) = none) :
    recalculate_all_indicators db sid semid = (Except.ok (), db) := by
  unfold recalculate_all_indicators
  cases hs : db.students.find? (fun s => s.id == sid) with
  | none => rfl
  | some st => rw [hsem]

/-- The successful branch of a recalculation run. -/
theorem recalc_success (db : DB) (sid semid : Nat) (st : Student) (sem : Semester)
    (hs : db.students.find? (fun s => s.id == sid) = some st)
    (hsem : db.semesters.find? (fun s => s.id == semid) = some sem) :
    recalculate_all_indicators db sid semid =
      (Except.ok (), { db with
        indicators := applyWrites db.indicators (recalcWritesFor db st sem sid semid) db.now,
        now := db.now + 1 }) := by
  unfold recalculate_all_indicators
  rw [hs, hsem]

/-- C5: recalculateAll is idempotent: running it twice in a row with no
intervening grade change yields exactly the same indicator rows after the
second run as after the first, with the same average, standard_deviation,
progression_percentage and class_rank, only the calculated_at timestamp
advancing.  The hypothesis is the unique_together constraint of the
indicator table. -/
theorem claim_C5_idempotent (db : DB) (sid semid : Nat)
    (huniq : (db.indicators.map PerformanceIndicator.key).Nodup) :
    ((recalculate_all_indicators
        (recalculate_all_indicators db sid semid).2 sid semid).2.indicators.map
      stripTime) =
      ((recalculate_all_indicators db sid semid).2.indicators.map stripTime) := by
  rcases hs : db.students.find? (fun s => s.id == sid) with _ | st
  · simp only [recalc_student_none db sid semid hs]
  · rcases hsem : db.semesters.find? (fun s => s.id == semid) with _ | sem
    · simp only [recalc_semester_none db sid semid hsem]
    · rw [recalc_success db sid semid st sem hs hsem]
      have h2 := recalc_success
        { db with
          indicators := applyWrites db.indicators
            (recalcWritesFor db st sem sid semid) db.now,
          now := db.now + 1 } sid semid st sem hs hsem
      show ((recalculate_all_indicators
          { db with
            indicators := applyWrites db.indicators
              (recalcWritesFor db st sem sid semid) db.now,
            now := db.now + 1 } sid semid).2.indicators.map stripTime) =
        (applyWrites db.indicators (recalcWritesFor db st sem sid semid) db.now).map
          stripTime
      rw [h2]
      show (applyWrites
          (applyWrites db.indicators (recalcWritesFor db st sem sid semid) db.now)
          (recalcWritesFor db st sem sid semid) (db.now + 1)).map stripTime =
        (applyWrites db.indicators (recalcWritesFor db st sem sid semid) db.now).map
          stripTime
      exact applyWrites_idem_strip (recalcWritesFor db st sem sid semid)
        db.indicators db.now (db.now + 1)
        (recalcWritesFor_consistent db st sem sid semid)

/-- Witness for C5 at a concrete input: the indicator table of exampleDB1 is
empty, so its keys are trivially unique, and the theorem applies. -/
theorem claim_C5_idempotent_witness :
    ((recalculate_all_indicators
        (recalculate_all_indicators exampleDB1 1 1).2 1 1).2.indicators.map
      stripTime) =
      ((recalculate_all_indicators exampleDB1 1 1).2.indicators.map stripTime) :=
  claim_C5_idempotent exampleDB1 1 1 (by simp [exampleDB1])

/-- The averages list built by _calculate_class_rank (services.py lines
358-365): one (student id, overall average) pair per active classmate with a
computable average. -/
def avgPairs (db : DB) (class_id semid : Nat) : List (Nat × ℚ) :=
  (activeStudentsOf db.students class_id).filterMap (fun c =>
    (calculate_overall_average db c.id semid).map (fun a => (c.id, a)))

/-- The averages list after the stable descending sort by average
(services.py line 371). -/
def sortedAvgPairs (db : DB) (class_id semid : Nat) : List (Nat × ℚ) :=
  (avgPairs db class_id semid).mergeSort (fun a b => decide (b.2 ≤ a.2))

/-- The active students of the class whose overall average is computable, in
roster order. -/
def computableStudents (db : DB) (class_id semid : Nat) : List Student :=
  (activeStudentsOf db.students class_id).filter
    (fun s => (calculate_overall_average db s.id semid).isSome)

/-- A student's overall average, defaulting to 0 when it is not computable. -/
def avgOf (db : DB) (s : Student) (semid : Nat) : ℚ :=
  (calculate_overall_average db s.id semid).getD 0

/-- Unfolding of _calculate_class_rank once the student lookup has
succeeded. -/
theorem class_rank_unfold (db : DB) (sid semid : Nat) (a : ℚ) (st : Student)
    (hfind : db.students.find? (fun s => s.id == sid) = some st) :
    _calculate_class_rank db sid semid a =
      if (avgPairs db st.class_assigned_id semid).isEmpty then none
      else findRank 1 (sortedAvgPairs db st.class_assigned_id semid) sid := by
  unfold _calculate_class_rank
  rw [hfind]
  exact rfl

/-- The loop of services.py lines 374-378 returns None when no pair carries
the student's id. -/
theorem findRank_none {l : List (Nat × ℚ)} {sid : Nat}
    (h : ∀ p ∈ l, p.1 ≠ sid) : ∀ k, findRank k l sid = none := by
  induction l with
  | nil => intro k; rfl
  | cons p l ih =>
    intro k
    obtain ⟨cid, a⟩ := p
    simp only [findRank]
    rw [if_neg (h (cid, a) (List.mem_cons_self _ _))]
    exact ih (fun q hq => h q (List.mem_cons_of_mem _ hq)) (k + 1)

/-- The loop of services.py lines 374-378 returns one plus the index of the
first pair carrying the student's id, counting from its start value. -/
theorem findRank_eq_indexOf {l : List (Nat × ℚ)} {sid : Nat}
    (hmem : sid ∈ l.map Prod.fst) :
    ∀ k, findRank k l sid = some (k + (l.map Prod.fst).indexOf sid) := by
  induction l with
  | nil => simp at hmem
  | cons p l ih =>
    intro k
    obtain ⟨cid, a⟩ := p
    by_cases hc : cid = sid
    · subst hc
      simp only [findRank]
      simp [List.indexOf_cons_self]
    · simp only [findRank, if_neg hc]
      have hmem2 : sid ∈ l.map Prod.fst := by
        simp only [List.map_cons, List.mem_cons] at hmem
        rcases hmem with h | h
        · exact absurd h.symm hc
        · exact h
      rw [ih hmem2 (k + 1)]
      congr 1
      show k + 1 + List.indexOf sid (List.map Prod.fst l) =
        k + List.indexOf sid (cid :: List.map Prod.fst l)
      rw [List.indexOf_cons_ne _ hc]
      omega

/-- In a table with unique primary keys, looking a member up by its own id
finds it. -/
theorem find?_id_self {students : List Student}
    (hnd : (students.map Student.id).Nodup) {s : Student} (hs : s ∈ students) :
    students.find? (fun x => x.id == s.id) = some s := by
  induction students with
  | nil => cases hs
  | cons t ts ih =>
    rcases List.mem_cons.mp hs with rfl | hs'
    · rw [List.find?_cons_of_pos _ (by simp)]
    · have hne : t.id ≠ s.id := by
        intro hc
        have hhead := (List.nodup_cons.mp hnd).1
        exact hhead (hc ▸ List.mem_map_of_mem Student.id hs')
      rw [List.find?_cons_of_neg _ (by simp [hne])]
      exact ih (List.nodup_cons.mp hnd).2 hs'

/-- In a list of students with unique ids, the id determines the student. -/
theorem eq_of_id_eq {l : List Student} (hnd : (l.map Student.id).Nodup)
    {x y : Student} (hx : x ∈ l) (hy : y ∈ l) (hid : x.id = y.id) : x = y := by
  induction l with
  | nil => cases hx
  | cons t ts ih =>
    have hhead := (List.nodup_cons.mp hnd).1
    rcases List.mem_cons.mp hx with rfl | hx' <;>
      rcases List.mem_cons.mp hy with rfl | hy'
    · rfl
    · exact absurd (hid ▸ List.mem_map_of_mem Student.id hy') hhead
    · exact absurd (hid ▸ List.mem_map_of_mem Student.id hx') hhead
    · exact ih (List.nodup_cons.mp hnd).2 hx' hy'

/-- The filterMap building the averages list is the map of the pair function
over the students with computable averages. -/
theorem avgPairs_eq_map (db : DB) (class_id semid : Nat) :
    avgPairs db class_id semid =
      (computableStudents db class_id semid).map
        (fun c => (c.id, avgOf db c semid)) := by
  unfold avgPairs computableStudents
  induction activeStudentsOf db.students class_id with
  | nil => rfl
  | cons c l ih =>
    cases hc : calculate_overall_average db c.id semid with
    | none =>
      simp only [List.filterMap_cons, List.filter_cons, hc, Option.map_none',
        Option.isSome_none, Bool.false_eq_true, if_false]
      exact ih
    | some x =>
      simp only [List.filterMap_cons, List.filter_cons, hc, Option.map_some',
        Option.isSome_some, if_true, List.map_cons]
      rw [ih]
      simp [avgOf, hc]

/-- The students with computable averages are a sublist of the student
table. -/
theorem computableStudents_sublist (db : DB) (class_id semid : Nat) :
    (computableStudents db class_id semid).Sublist db.students :=
  (List.filter_sublist (activeStudentsOf db.students class_id)).trans
    (List.filter_sublist db.students)

/-- With unique primary keys, the students with computable averages have
unique ids. -/
theorem computable_ids_nodup (db : DB) (class_id semid : Nat)
    (hnd : (db.students.map Student.id).Nodup) :
    ((computableStudents db class_id semid).map Student.id).Nodup :=
  ((computableStudents_sublist db class_id semid).map Student.id).nodup hnd

/-- The sorted averages list is a permutation of the unsorted one. -/
theorem sortedAvgPairs_perm (db : DB) (class_id semid : Nat) :
    (sortedAvgPairs db class_id semid).Perm (avgPairs db class_id semid) :=
  List.mergeSort_perm _ _

/-- The first components of the averages list are the ids of the students
with computable averages. -/
theorem avgPairs_fst (db : DB) (class_id semid : Nat) :
    (avgPairs db class_id semid).map Prod.fst =
      (computableStudents db class_id semid).map Student.id := by
  rw [avgPairs_eq_map, List.map_map]
  rfl

/-- With unique primary keys, the first components of the sorted averages
list are distinct. -/
theorem sorted_fst_nodup (db : DB) (class_id semid : Nat)
    (hnd : (db.students.map Student.id).Nodup) :
    ((sortedAvgPairs db class_id semid).map Prod.fst).Nodup := by
  have hperm := (sortedAvgPairs_perm db class_id semid).map Prod.fst
  rw [avgPairs_fst] at hperm
  exact hperm.nodup_iff.mpr (computable_ids_nodup db class_id semid hnd)

/-- The sorted averages list is pairwise descending in the averages. -/
theorem sortedAvgPairs_pairwise (db : DB) (class_id semid : Nat) :
    (sortedAvgPairs db class_id semid).Pairwise
      (fun p q => (decide (q.2 ≤ p.2)) = true) := by
  apply List.sorted_mergeSort
  · intro a b c hab hbc
    have h1 : b.2 ≤ a.2 := of_decide_eq_true hab
    have h2 : c.2 ≤ b.2 := of_decide_eq_true hbc
    exact decide_eq_true (le_trans h2 h1)
  · intro a b
    rcases le_total b.2 a.2 with h | h
    · rw [decide_eq_true h]
      rfl
    · rw [decide_eq_true h]
      simp

/-- Membership in the computable-students list, unpacked. -/
theorem mem_computable (db : DB) (class_id semid : Nat) {s : Student}
    (hs : s ∈ computableStudents db class_id semid) :
    s ∈ db.students ∧ s.class_assigned_id = class_id ∧ s.is_active = true ∧
      (calculate_overall_average db s.id semid).isSome := by
  obtain ⟨hact, hsome⟩ := List.mem_filter.mp hs
  obtain ⟨hdb, hcls⟩ := List.mem_filter.mp hact
  have hcls2 := hcls
  simp only [Bool.and_eq_true, beq_iff_eq] at hcls2
  exact ⟨hdb, hcls2.1, hcls2.2, hsome⟩

/-- The class rank of a student with a computable average is one plus the
position of the student's id in the sorted averages list. -/
theorem rank_eq_index (db : DB) (class_id semid : Nat)
    (hnd : (db.students.map Student.id).Nodup)
    {s : Student} (hsW : s ∈ computableStudents db class_id semid) (a : ℚ) :
    _calculate_class_rank db s.id semid a =
      some (((sortedAvgPairs db class_id semid).map Prod.fst).indexOf s.id + 1) := by
  obtain ⟨hsdb, hcls, hact, hsome⟩ := mem_computable db class_id semid hsW
  have hfind := find?_id_self hnd hsdb
  rw [class_rank_unfold db s.id semid a s hfind, hcls]
  have hid_mem : s.id ∈ (avgPairs db class_id semid).map Prod.fst := by
    rw [avgPairs_fst]
    exact List.mem_map_of_mem Student.id hsW
  have hne : ¬ (avgPairs db class_id semid).isEmpty = true := by
    intro hc
    rw [List.isEmpty_iff.mp hc] at hid_mem
    simp at hid_mem
  rw [if_neg hne]
  have hid_mem_sorted : s.id ∈ (sortedAvgPairs db class_id semid).map Prod.fst :=
    ((sortedAvgPairs_perm db class_id semid).map Prod.fst).mem_iff.mpr hid_mem
  rw [findRank_eq_indexOf hid_mem_sorted 1]
  congr 1
  omega

/-- Mapping a duplicate-free list through its own indexOf function
enumerates the positions in order. -/
theorem map_indexOf_nodup {L : List Nat} (hnd : L.Nodup) :
    L.map (fun x => L.indexOf x) = List.range L.length := by
  induction L with
  | nil => rfl
  | cons a l ih =>
    have hhead := (List.nodup_cons.mp hnd).1
    have htail := (List.nodup_cons.mp hnd).2
    simp only [List.map_cons, List.length_cons, List.range_succ_eq_map,
      List.indexOf_cons_self]
    refine congrArg (List.cons 0) ?_
    have hstep : ∀ x ∈ l, (a :: l).indexOf x = l.indexOf x + 1 := by
      intro x hx
      exact List.indexOf_cons_ne _ (fun hc => hhead (hc ▸ hx))
    rw [List.map_congr_left hstep]
    have hcomp : l.map (fun x => l.indexOf x + 1) =
        (l.map (fun x => l.indexOf x)).map Nat.succ := by
      rw [List.map_map]
      rfl
    rw [hcomp, ih htail]

/-- C6: for a class and semester with N active students having computable
overall averages, the class ranks assigned to those N students are exactly a
permutation of 1..N; a student whose rank is 1 has the highest overall
average; and the rank is None for every student who is not among the
students with computable averages (own average unavailable, or inactive).
The hypothesis is the primary-key uniqueness of the student table. -/
theorem claim_C6_class_rank (db : DB) (class_id semid : Nat)
    (hnd : (db.students.map Student.id).Nodup) :
    (∃ ranks : List Nat,
      (computableStudents db class_id semid).map
        (fun s => _calculate_class_rank db s.id semid (avgOf db s semid)) =
        ranks.map some ∧
      ranks.Perm (List.range' 1 (computableStudents db class_id semid).length)) ∧
    (∀ s ∈ computableStudents db class_id semid,
      _calculate_class_rank db s.id semid (avgOf db s semid) = some 1 →
      ∀ t ∈ computableStudents db class_id semid,
        avgOf db t semid ≤ avgOf db s semid) ∧
    (∀ s ∈ db.students,
      (calculate_overall_average db s.id semid = none ∨ s.is_active = false) →
      ∀ a, _calculate_class_rank db s.id semid a = none) := by
  refine ⟨⟨(computableStudents db class_id semid).map
      (fun s => ((sortedAvgPairs db class_id semid).map Prod.fst).indexOf s.id + 1),
      ?_, ?_⟩, ?_, ?_⟩
  · rw [List.map_map]
    apply List.map_congr_left
    intro s hs
    exact rank_eq_index db class_id semid hnd hs (avgOf db s semid)
  · have hLnodup := sorted_fst_nodup db class_id semid hnd
    have hids_perm : ((computableStudents db class_id semid).map Student.id).Perm
        ((sortedAvgPairs db class_id semid).map Prod.fst) := by
      have hp := (sortedAvgPairs_perm db class_id semid).map Prod.fst
      rw [avgPairs_fst] at hp
      exact hp.symm
    have hmm : (computableStudents db class_id semid).map
        (fun s => ((sortedAvgPairs db class_id semid).map Prod.fst).indexOf s.id + 1) =
        ((computableStudents db class_id semid).map Student.id).map
          (fun x => ((sortedAvgPairs db class_id semid).map Prod.fst).indexOf x + 1) := by
      rw [List.map_map]
      rfl
    rw [hmm]
    have hrange : ((sortedAvgPairs db class_id semid).map Prod.fst).map
        (fun x => ((sortedAvgPairs db class_id semid).map Prod.fst).indexOf x + 1) =
        List.range' 1 ((sortedAvgPairs db class_id semid).map Prod.fst).length := by
      have h1 : ((sortedAvgPairs db class_id semid).map Prod.fst).map
          (fun x => ((sortedAvgPairs db class_id semid).map Prod.fst).indexOf x + 1) =
          (((sortedAvgPairs db class_id semid).map Prod.fst).map
            (fun x => ((sortedAvgPairs db class_id semid).map Prod.fst).indexOf x)).map
            (fun n => n + 1) :=
        (List.map_map (fun n => n + 1)
          (fun x => ((sortedAvgPairs db class_id semid).map Prod.fst).indexOf x)
          ((sortedAvgPairs db class_id semid).map Prod.fst)).symm
      rw [h1, map_indexOf_nodup hLnodup, List.range'_eq_map_range]
      apply List.map_congr_left
      intro x hx
      omega
    have hlen : ((sortedAvgPairs db class_id semid).map Prod.fst).length =
        (computableStudents db class_id semid).length := by
      have hl := hids_perm.length_eq
      rw [List.length_map] at hl
      exact hl.symm
    have hp1 := hids_perm.map
      (fun x => ((sortedAvgPairs db class_id semid).map Prod.fst).indexOf x + 1)
    rw [hrange, hlen] at hp1
    exact hp1
  · intro s hs hrank t ht
    have hidx := rank_eq_index db class_id semid hnd hs (avgOf db s semid)
    rw [hidx] at hrank
    have hidx0 : ((sortedAvgPairs db class_id semid).map Prod.fst).indexOf s.id = 0 := by
      have hinj := Option.some.inj hrank
      omega
    cases hsort : sortedAvgPairs db class_id semid with
    | nil =>
      exfalso
      have hid_mem : s.id ∈ (avgPairs db class_id semid).map Prod.fst := by
        rw [avgPairs_fst]
        exact List.mem_map_of_mem Student.id hs
      have hsm : s.id ∈ (sortedAvgPairs db class_id semid).map Prod.fst :=
        ((sortedAvgPairs_perm db class_id semid).map Prod.fst).mem_iff.mpr hid_mem
      rw [hsort] at hsm
      simp at hsm
    | cons p0 rest =>
      have hp01 : p0.1 = s.id := by
        by_contra hne
        rw [hsort, List.map_cons, List.indexOf_cons_ne _ hne] at hidx0
        exact Nat.succ_ne_zero _ hidx0
      have hp0mem : p0 ∈ avgPairs db class_id semid :=
        (sortedAvgPairs_perm db class_id semid).mem_iff.mp
          (hsort ▸ List.mem_cons_self p0 rest)
      rw [avgPairs_eq_map] at hp0mem
      obtain ⟨u, hu, hup⟩ := List.mem_map.mp hp0mem
      have huid : u.id = s.id := by
        rw [← hup] at hp01
        exact hp01
      have hus : u = s :=
        eq_of_id_eq (computable_ids_nodup db class_id semid hnd) hu hs huid
      have hp0snd : p0.2 = avgOf db s semid := by
        rw [← hup, ← hus]
      have htmem : (t.id, avgOf db t semid) ∈ sortedAvgPairs db class_id semid := by
        apply (sortedAvgPairs_perm db class_id semid).mem_iff.mpr
        rw [avgPairs_eq_map]
        exact List.mem_map_of_mem _ ht
      rw [hsort] at htmem
      rcases List.mem_cons.mp htmem with heq | hrest
      · exact le_of_eq (by rw [show avgOf db t semid = p0.2 from by rw [← heq], hp0snd])
      · have hpw := sortedAvgPairs_pairwise db class_id semid
        rw [hsort] at hpw
        have hhead := (List.pairwise_cons.mp hpw).1 _ hrest
        have hle : avgOf db t semid ≤ p0.2 := of_decide_eq_true hhead
        rw [hp0snd] at hle
        exact hle
  · intro s hs hcond a
    have hfind := find?_id_self hnd hs
    rw [class_rank_unfold db s.id semid a s hfind]
    by_cases hemp : (avgPairs db s.class_assigned_id semid).isEmpty = true
    · rw [if_pos hemp]
    · rw [if_neg hemp]
      refine findRank_none ?_ 1
      intro p hp hps
      have hp2 : p ∈ avgPairs db s.class_assigned_id semid :=
        (sortedAvgPairs_perm db s.class_assigned_id semid).mem_iff.mp hp
      unfold avgPairs at hp2
      obtain ⟨c, hc, hcp⟩ := List.mem_filterMap.mp hp2
      obtain ⟨x, hx1, hx2⟩ := Option.map_eq_some'.mp hcp
      have hcid : c.id = s.id := by
        rw [← hx2] at hps
        exact hps
      have hcdb : c ∈ db.students := (List.mem_filter.mp hc).1
      have hcs : c = s := eq_of_id_eq hnd hcdb hs hcid
      rcases hcond with hnone | hinact
      · rw [hcs, hnone] at hx1
        exact Option.noConfusion hx1
      · have hcact : c.is_active = true := by
          have hflt := (List.mem_filter.mp hc).2
          simp only [Bool.and_eq_true, beq_iff_eq] at hflt
          exact hflt.2
        rw [hcs, hinact] at hcact
        exact Bool.noConfusion hcact

/-- Concrete three-student class matching the specification's scenario:
averages 18.00, 14.00 and 12.00 in one semester. -/
def exampleDB6 : DB :=
  { students := [{ id := 1, class_assigned_id := 1, is_active := true },
                 { id := 2, class_assigned_id := 1, is_active := true },
                 { id := 3, class_assigned_id := 1, is_active := true }],
    subjects := [{ id := 1, coefficient := 1 }],
    semesters := [{ id := 1, academic_year := "2024-2025", start_date := 10 }],
    grades := [{ student_id := 1, subject_id := 1, semester_id := 1, value := 18 },
               { student_id := 2, subject_id := 1, semester_id := 1, value := 14 },
               { student_id := 3, subject_id := 1, semester_id := 1, value := 12 }],
    indicators := [],
    now := 0 }

/-- Witness for C6 at a concrete input: the student ids of exampleDB6 are
distinct and the theorem applies to its three-student class. -/
theorem claim_C6_class_rank_witness :
    (∃ ranks : List Nat,
      (computableStudents exampleDB6 1 1).map
        (fun s => _calculate_class_rank exampleDB6 s.id 1 (avgOf exampleDB6 s 1)) =
        ranks.map some ∧
      ranks.Perm (List.range' 1 (computableStudents exampleDB6 1 1).length)) ∧
    (∀ s ∈ computableStudents exampleDB6 1 1,
      _calculate_class_rank exampleDB6 s.id 1 (avgOf exampleDB6 s 1) = some 1 →
      ∀ t ∈ computableStudents exampleDB6 1 1,
        avgOf exampleDB6 t 1 ≤ avgOf exampleDB6 s 1) ∧
    (∀ s ∈ exampleDB6.students,
      (calculate_overall_average exampleDB6 s.id 1 = none ∨ s.is_active = false) →
      ∀ a, _calculate_class_rank exampleDB6 s.id 1 a = none) :=
  claim_C6_class_rank exampleDB6 1 1 (by decide)
